import Mathlib

/-!
Verification development for the cs736-zephyr analysis pipeline.

Part 1 embeds the stateful log-line classifier of
`app/jack_test/parse_output.py` (class `ZephyrOutputParser`): lines are
`List Char`, Python dictionaries are insertion-ordered association lists,
heterogeneous record values are the inductive `Val`, and each regular
expression of `self.patterns` is translated to an executable matcher that
reproduces `re.search` (leftmost start position, greedy repetition with
backtracking).  The one fallible path (`self.tasks['fault_cycles'].append`
on a non-list value raises `AttributeError` in Python) makes `parse_line`
return `Option ParserState`, `none` standing for the raised exception.

Part 2 embeds the tabular loader and the threshold / selection logic of
`app/scheduler_evaluation/scripts/plot_results.py` and
`app/workloads/scripts/compare_schedulers.py`.  Python float VALUES are
modelled as exact rationals only where the property at issue is
independent of rounding (literal parsing, threshold comparisons, minimum
selection); the float mean computations of `generate_text_report` are
deliberately not modelled, since IEEE-754 addition is order-sensitive and
an exact-rational mean would not be faithful to them.
-/

namespace Zephyr

/-- `\w` of the source regexes (ASCII word characters). -/
def isWordChar (c : Char) : Bool := c.isAlphanum || c = '_'

/-- `\s` of the source regexes. -/
def isSpaceChar (c : Char) : Bool := c.isWhitespace

/-- `[0-9a-f]` of the source regexes (lowercase hexadecimal). -/
def isHexChar (c : Char) : Bool := c.isDigit || ('a' ≤ c && c ≤ 'f')

/-- Python `int` applied to a captured digit group. -/
def natOfDigits (ds : List Char) : Nat :=
  ds.foldl (fun a c => 10 * a + (c.toNat - 48)) 0

/-- Match a literal fragment of a pattern, returning the rest of the input. -/
def dropLit (pat s : List Char) : Option (List Char) :=
  if pat.isPrefixOf s then some (s.drop pat.length) else none

/-- Greedy one-or-more character-class repetition (`\w+`, `\d+`, `\s+`,
`[0-9a-f]+`): returns the nonempty matched run and the rest. -/
def span1 (p : Char → Bool) (s : List Char) : Option (List Char × List Char) :=
  match s.takeWhile p with
  | [] => none
  | t => some (t, s.dropWhile p)

theorem span1_rest_lt {p : Char → Bool} {s t r : List Char}
    (h : span1 p s = some (t, r)) : r.length < s.length := by
  unfold span1 at h
  cases htw : s.takeWhile p with
  | nil => rw [htw] at h; exact absurd h (by simp)
  | cons c cs =>
    rw [htw] at h
    have hr : r = s.dropWhile p := by
      have h₁ := h
      simp only [Option.some.injEq, Prod.mk.injEq] at h₁
      exact h₁.2.symm
    have hlen : (s.takeWhile p).length + (s.dropWhile p).length = s.length := by
      conv_rhs => rw [← List.takeWhile_append_dropWhile (p := p) (l := s)]
      exact (List.length_append _ _).symm
    rw [htw, ← hr] at hlen
    simp only [List.length_cons] at hlen
    omega

/-- `re.search`: try the pattern matcher at every start position, leftmost
success wins. -/
def searchL {α : Type} (m : List Char → Option α) : List Char → Option α
  | [] => m []
  | c :: cs =>
    match m (c :: cs) with
    | some r => some r
    | none => searchL m cs

/-- Python substring containment (`needle in line`). -/
def hasSub (needle : List Char) : List Char → Bool
  | [] => needle.isPrefixOf []
  | c :: cs => needle.isPrefixOf (c :: cs) || hasSub needle cs

/-- `patterns['timestamp']`: `\[(\d{2}:\d{2}:\d{2}\.\d{3},\d{3})\]`,
tried at one start position. -/
def tsAt : List Char → Option String
  | '[' :: h1 :: h2 :: ':' :: m1 :: m2 :: ':' :: s1 :: s2 :: '.' :: a1 :: a2 :: a3 ::
      ',' :: b1 :: b2 :: b3 :: ']' :: _ =>
    if [h1, h2, m1, m2, s1, s2, a1, a2, a3, b1, b2, b3].all Char.isDigit then
      some (String.mk [h1, h2, ':', m1, m2, ':', s1, s2, '.', a1, a2, a3, ',', b1, b2, b3])
    else none
  | _ => none

/-- Tail of `patterns['task_completion']` after the captured task-name
phrase: ` Task completed (\d+) (\w+)`. -/
def tcTail (s : List Char) : Option (Int × String) := do
  let s1 ← dropLit " Task completed ".toList s
  let (ds, s2) ← span1 Char.isDigit s1
  let s3 ← dropLit [' '] s2
  let (u, _) ← span1 isWordChar s3
  some ((natOfDigits ds : Int), String.mk u)

/-- Greedy `(?:\s+\w+)*` of the task-name capture group, with regex
backtracking: prefer extending the captured phrase, fall back to matching
the literal tail at the current point.  The `fuel` argument only makes the
recursion structural; each step strictly shortens `s`, so fuel
`s.length + 1` never runs out (see `tcLoopFuel_irrelevant`). -/
def tcLoopFuel (fuel : Nat) (name s : List Char) : Option (String × Int × String) :=
  match fuel with
  | 0 => none
  | fuel + 1 =>
    match span1 isSpaceChar s with
    | some (sp, s1) =>
      match span1 isWordChar s1 with
      | some (w, s2) =>
        match tcLoopFuel fuel (name ++ sp ++ w) s2 with
        | some r => some r
        | none => (tcTail s).map (fun cu => (String.mk name, cu.1, cu.2))
      | none => (tcTail s).map (fun cu => (String.mk name, cu.1, cu.2))
    | none => (tcTail s).map (fun cu => (String.mk name, cu.1, cu.2))

def tcLoop (name s : List Char) : Option (String × Int × String) :=
  tcLoopFuel (s.length + 1) name s

/-- Any fuel above the length of the remaining input gives the same answer:
the fuel is an implementation device, not part of the semantics. -/
theorem tcLoopFuel_irrelevant (fuel₁ fuel₂ : Nat) (name s : List Char)
    (h₁ : s.length < fuel₁) (h₂ : s.length < fuel₂) :
    tcLoopFuel fuel₁ name s = tcLoopFuel fuel₂ name s := by
  induction fuel₁ generalizing fuel₂ name s with
  | zero => omega
  | succ f ih =>
    cases fuel₂ with
    | zero => omega
    | succ f₂ =>
      unfold tcLoopFuel
      cases hsp : span1 isSpaceChar s with
      | none => rfl
      | some p =>
        obtain ⟨sp, s1⟩ := p
        dsimp only
        cases hw : span1 isWordChar s1 with
        | none => rfl
        | some q =>
          obtain ⟨w, s2⟩ := q
          dsimp only
          have hlt : s2.length < s.length :=
            Nat.lt_trans (span1_rest_lt hw) (span1_rest_lt hsp)
          rw [ih f₂ (name ++ sp ++ w) s2 (by omega) (by omega)]

/-- `patterns['task_completion']`:
`<inf> \w+: (\w+(?:\s+\w+)*) Task completed (\d+) (\w+)` at one start
position; yields (task name, count, unit). -/
def tcAt (s : List Char) : Option (String × Int × String) := do
  let s1 ← dropLit "<inf> ".toList s
  let (_, s2) ← span1 isWordChar s1
  let s3 ← dropLit ": ".toList s2
  let (w1, s4) ← span1 isWordChar s3
  tcLoop w1 s4

/-- `patterns['simulation_time']`:
`<inf> mission_critical: Simulation Time Elapsed: (\d+) seconds`. -/
def simAt (s : List Char) : Option Int := do
  let s1 ← dropLit "<inf> mission_critical: Simulation Time Elapsed: ".toList s
  let (ds, s2) ← span1 Char.isDigit s1
  let _ ← dropLit " seconds".toList s2
  some (natOfDigits ds : Int)

/-- `patterns['scheduler_state']`:
`<inf> mission_critical: Scheduler State: Current Thread (0x[0-9a-f]+), Priority (\d+)`. -/
def schedAt (s : List Char) : Option (String × Int) := do
  let s1 ← dropLit "<inf> mission_critical: Scheduler State: Current Thread 0x".toList s
  let (hx, s2) ← span1 isHexChar s1
  let s3 ← dropLit ", Priority ".toList s2
  let (ds, _) ← span1 Char.isDigit s3
  some (String.mk ('0' :: 'x' :: hx), (natOfDigits ds : Int))

/-- `patterns['context_switch']`:
`<dbg> timing_analysis: Context switch: (0x[0-9a-f]+) -> (0x[0-9a-f]+) \(total: (\d+)\)`. -/
def ctxAt (s : List Char) : Option (String × String × Int) := do
  let s1 ← dropLit "<dbg> timing_analysis: Context switch: 0x".toList s
  let (h1, s2) ← span1 isHexChar s1
  let s3 ← dropLit " -> 0x".toList s2
  let (h2, s4) ← span1 isHexChar s3
  let s5 ← dropLit " (total: ".toList s4
  let (ds, s6) ← span1 Char.isDigit s5
  let _ ← dropLit [')'] s6
  some (String.mk ('0' :: 'x' :: h1), String.mk ('0' :: 'x' :: h2), (natOfDigits ds : Int))

/-- `patterns['emergency']`: `<err> critical_tasks: EMERGENCY: (.+)`
(`.` does not cross a newline, the group must be nonempty). -/
def emgAt (s : List Char) : Option String := do
  let s1 ← dropLit "<err> critical_tasks: EMERGENCY: ".toList s
  let msg := s1.takeWhile (fun c => c ≠ '\n')
  if msg.isEmpty then none else some (String.mk msg)

/-- `patterns['memory_analysis']`:
`<inf> timing_analysis: Task (\d+): monitored \(thread ptr: (0x[0-9a-f]+)\)`. -/
def memAt (s : List Char) : Option (Int × String) := do
  let s1 ← dropLit "<inf> timing_analysis: Task ".toList s
  let (ds, s2) ← span1 Char.isDigit s1
  let s3 ← dropLit ": monitored (thread ptr: 0x".toList s2
  let (hx, s4) ← span1 isHexChar s3
  let _ ← dropLit [')'] s4
  some ((natOfDigits ds : Int), String.mk ('0' :: 'x' :: hx))

/-- `patterns['fault_detection']`:
`<inf> critical_tasks: FAULT: Detection cycle (\d+) - Thread (0x[0-9a-f]+)`. -/
def faultAt (s : List Char) : Option (Int × String) := do
  let s1 ← dropLit "<inf> critical_tasks: FAULT: Detection cycle ".toList s
  let (ds, s2) ← span1 Char.isDigit s1
  let s3 ← dropLit " - Thread 0x".toList s2
  let (hx, _) ← span1 isHexChar s3
  some ((natOfDigits ds : Int), String.mk ('0' :: 'x' :: hx))

/-- Heterogeneous Python values stored in the parser's collections. -/
inductive Val where
  | str (s : String)
  | int (n : Int)
  | null
  | list (elems : List Val)
  | dict (fields : List (String × Val))

/-- Python dictionary lookup (`d[k]` / `k in d`). -/
def dictGet (d : List (String × Val)) (k : String) : Option Val :=
  match d with
  | [] => none
  | (k₁, v) :: rest => if k₁ = k then some v else dictGet rest k

/-- Python dictionary assignment `d[k] = v`: updates in place when the key
exists (insertion position kept), appends otherwise. -/
def dictSet (d : List (String × Val)) (k : String) (v : Val) : List (String × Val) :=
  match d with
  | [] => [(k, v)]
  | (k₁, v₁) :: rest => if k₁ = k then (k₁, v) :: rest else (k₁, v₁) :: dictSet rest k v

/-- Key lookup on a `Val` that is a dictionary. -/
def dictGetV (v : Val) (k : String) : Option Val :=
  match v with
  | Val.dict d => dictGet d k
  | _ => none

/-- The simulation-time stamp a record carries, under either of the two key
spellings the source uses (`simulation_time`, `simulation_seconds`). -/
def simStampOf (v : Val) : Option Val :=
  match dictGetV v "simulation_time" with
  | some x => some x
  | none => dictGetV v "simulation_seconds"

/-- The wall-clock timestamp value stored in a record (`None` when the line
carried no timestamp). -/
def valOfTs (ts : Option String) : Val :=
  match ts with
  | some s => Val.str s
  | none => Val.null

/-- The mutable state of `ZephyrOutputParser` (`__init__`). -/
structure ParserState where
  tasks : List (String × Val)
  timing_data : List Val
  scheduler_events : List Val
  memory_data : List Val
  emergency_events : List Val
  safety_violations : List Val
  simulation_time : Int

/-- `ZephyrOutputParser()`: empty collections, clock 0. -/
def initialState : ParserState := ⟨[], [], [], [], [], [], 0⟩

/-- The completion record `_parse_task_completion` stores:
`{'count': count, 'unit': unit, 'completion_time': timestamp}`. -/
def taskVal (count : Int) (unit : String) (ts : Option String) : Val :=
  Val.dict [("count", Val.int count), ("unit", Val.str unit),
    ("completion_time", valOfTs ts)]

def _parse_task_completion (st : ParserState) (line : List Char)
    (timestamp : Option String) : ParserState :=
  match searchL tcAt line with
  | none => st
  | some (task_name, count, unit) =>
    { st with tasks := dictSet st.tasks task_name (taskVal count unit timestamp) }

def _parse_simulation_time (st : ParserState) (line : List Char)
    (timestamp : Option String) : ParserState :=
  match searchL simAt line with
  | none => st
  | some n =>
    { st with
      simulation_time := n
      timing_data := st.timing_data ++ [Val.dict
        [("timestamp", valOfTs timestamp), ("simulation_seconds", Val.int n)]] }

def _parse_scheduler_state (st : ParserState) (line : List Char)
    (timestamp : Option String) : ParserState :=
  match searchL schedAt line with
  | none => st
  | some (thread_id, priority) =>
    { st with scheduler_events := st.scheduler_events ++ [Val.dict
        [("timestamp", valOfTs timestamp), ("current_thread", Val.str thread_id),
         ("priority", Val.int priority),
         ("simulation_time", Val.int st.simulation_time)]] }

def _parse_context_switch (st : ParserState) (line : List Char)
    (timestamp : Option String) : ParserState :=
  match searchL ctxAt line with
  | none => st
  | some (from_thread, to_thread, total_switches) =>
    { st with scheduler_events := st.scheduler_events ++ [Val.dict
        [("timestamp", valOfTs timestamp), ("type", Val.str "context_switch"),
         ("from_thread", Val.str from_thread), ("to_thread", Val.str to_thread),
         ("total_switches", Val.int total_switches)]] }

def _parse_emergency (st : ParserState) (line : List Char)
    (timestamp : Option String) : ParserState :=
  match searchL emgAt line with
  | none => st
  | some message =>
    { st with emergency_events := st.emergency_events ++ [Val.dict
        [("timestamp", valOfTs timestamp), ("message", Val.str message),
         ("simulation_time", Val.int st.simulation_time)]] }

def _parse_safety_violation (st : ParserState) (_line : List Char)
    (timestamp : Option String) : ParserState :=
  { st with safety_violations := st.safety_violations ++ [Val.dict
      [("timestamp", valOfTs timestamp),
       ("simulation_time", Val.int st.simulation_time)]] }

def _parse_timing_report_start (st : ParserState) (_line : List Char)
    (timestamp : Option String) : ParserState :=
  { st with timing_data := st.timing_data ++ [Val.dict
      [("timestamp", valOfTs timestamp), ("event", Val.str "timing_report"),
       ("simulation_time", Val.int st.simulation_time)]] }

def _parse_memory_data (st : ParserState) (line : List Char)
    (timestamp : Option String) : ParserState :=
  match searchL memAt line with
  | none => st
  | some (task_id, thread_ptr) =>
    { st with memory_data := st.memory_data ++ [Val.dict
        [("timestamp", valOfTs timestamp), ("task_id", Val.int task_id),
         ("thread_ptr", Val.str thread_ptr),
         ("simulation_time", Val.int st.simulation_time)]] }

/-- The fault record `_parse_fault_detection` appends:
`{'timestamp': ..., 'cycle': ..., 'thread_id': ..., 'simulation_time': ...}`. -/
def faultVal (cycle : Int) (thread_id : String) (ts : Option String)
    (sim : Int) : Val :=
  Val.dict [("timestamp", valOfTs ts), ("cycle", Val.int cycle),
    ("thread_id", Val.str thread_id), ("simulation_time", Val.int sim)]

/-- `_parse_fault_detection`.  The source does
`self.tasks['fault_cycles'].append(...)`; when a prior task-completion line
stored a plain record under the literal name `fault_cycles` that value is a
dictionary and `.append` raises `AttributeError`, modelled as `none`. -/
def _parse_fault_detection (st : ParserState) (line : List Char)
    (timestamp : Option String) : Option ParserState :=
  match searchL faultAt line with
  | none => some st
  | some (cycle, thread_id) =>
    let rec₀ := faultVal cycle thread_id timestamp st.simulation_time
    match dictGet st.tasks "fault_cycles" with
    | none =>
      some { st with tasks := dictSet st.tasks "fault_cycles" (Val.list [rec₀]) }
    | some (Val.list l) =>
      some { st with tasks := dictSet st.tasks "fault_cycles" (Val.list (l ++ [rec₀])) }
    | some _ => none

/-- The branch-dispatch substrings of `parse_line`, in source order. -/
def tcSub : List Char := "Task completed".toList
def simSub : List Char := "Simulation Time Elapsed".toList
def schedSub : List Char := "Scheduler State".toList
def ctxSub : List Char := "Context switch".toList
def emgSub : List Char := "EMERGENCY:".toList
def safSub : List Char := "Safety violation detected".toList
def timSub : List Char := "TIMING ANALYSIS REPORT".toList

/-- `parse_line`: timestamp probe, then the fixed ordered dispatch.  `none`
is the propagated `AttributeError` of the fault branch. -/
def parse_line (st : ParserState) (line : List Char) : Option ParserState :=
  let timestamp := searchL tsAt line
  if hasSub tcSub line then some (_parse_task_completion st line timestamp)
  else if hasSub simSub line then some (_parse_simulation_time st line timestamp)
  else if hasSub schedSub line then some (_parse_scheduler_state st line timestamp)
  else if hasSub ctxSub line then some (_parse_context_switch st line timestamp)
  else if hasSub emgSub line then some (_parse_emergency st line timestamp)
  else if hasSub safSub line then some (_parse_safety_violation st line timestamp)
  else if hasSub timSub line then some (_parse_timing_report_start st line timestamp)
  else if (searchL memAt line).isSome then some (_parse_memory_data st line timestamp)
  else if (searchL faultAt line).isSome then _parse_fault_detection st line timestamp
  else some st

/-- The `main` loop: feed each line to `parse_line` in order. -/
def runLines (st : ParserState) : List (List Char) → Option ParserState
  | [] => some st
  | l :: ls =>
    match parse_line st l with
    | none => none
    | some st₁ => runLines st₁ ls

/-- `'event' in t` on a stored record. -/
def hasKeyV (v : Val) (k : String) : Bool := (dictGetV v k).isSome

/-- `get_summary`: the summary dictionary's entries, field for field. -/
def get_summary (st : ParserState) : List (String × Val) :=
  [("simulation_duration", Val.int st.simulation_time),
   ("total_tasks", Val.int st.tasks.length),
   ("task_performance", Val.dict st.tasks),
   ("scheduler_events_count", Val.int st.scheduler_events.length),
   ("emergency_events_count", Val.int st.emergency_events.length),
   ("safety_violations_count", Val.int st.safety_violations.length),
   ("timing_reports_count",
     Val.int (st.timing_data.filter (fun t => hasKeyV t "event")).length),
   ("memory_entries_count", Val.int st.memory_data.length)]

/-- `export_json`'s exported record (file writing omitted): the summary and
the raw collections, the parsed `tasks` mapping appearing both inside the
summary (as `task_performance`) and at top level (as `tasks`). -/
def export_data (st : ParserState) : List (String × Val) :=
  [("summary", Val.dict (get_summary st)),
   ("tasks", Val.dict st.tasks),
   ("timing_data", Val.list st.timing_data),
   ("scheduler_events", Val.list st.scheduler_events),
   ("memory_data", Val.list st.memory_data),
   ("emergency_events", Val.list st.emergency_events),
   ("safety_violations", Val.list st.safety_violations)]

/-- No dispatch predicate of `parse_line` matches the line. -/
def noBranch (line : List Char) : Bool :=
  !hasSub tcSub line && !hasSub simSub line && !hasSub schedSub line &&
  !hasSub ctxSub line && !hasSub emgSub line && !hasSub safSub line &&
  !hasSub timSub line && !(searchL memAt line).isSome &&
  !(searchL faultAt line).isSome

/-- The fault-detection branch of `parse_line` fires: none of the earlier
predicates match and the fault regex does. -/
def faultFires (line : List Char) : Bool :=
  !hasSub tcSub line && !hasSub simSub line && !hasSub schedSub line &&
  !hasSub ctxSub line && !hasSub emgSub line && !hasSub safSub line &&
  !hasSub timSub line && !(searchL memAt line).isSome &&
  (searchL faultAt line).isSome

/-- The task-completion branch of `parse_line` fires with an extracted
(name, count, unit, wall-clock timestamp). -/
def completionOf (line : List Char) : Option (String × Int × String × Option String) :=
  if hasSub tcSub line then
    (searchL tcAt line).map (fun r => (r.1, r.2.1, r.2.2, searchL tsAt line))
  else none

theorem dictGet_dictSet_self (d : List (String × Val)) (k : String) (v : Val) :
    dictGet (dictSet d k v) k = some v := by
  induction d with
  | nil => simp [dictSet, dictGet]
  | cons p rest ih =>
    obtain ⟨k₁, v₁⟩ := p
    by_cases hk : k₁ = k
    · simp [dictSet, dictGet, hk]
    · simp [dictSet, dictGet, hk, ih]

theorem dictGet_dictSet_ne (d : List (String × Val)) (k k' : String) (v : Val)
    (h : k ≠ k') : dictGet (dictSet d k v) k' = dictGet d k' := by
  induction d with
  | nil => simp [dictSet, dictGet, h]
  | cons p rest ih =>
    obtain ⟨k₁, v₁⟩ := p
    by_cases hk : k₁ = k
    · subst hk; simp [dictSet, dictGet, h]
    · by_cases hk' : k₁ = k'
      · simp [dictSet, dictGet, hk, hk', Ne.symm h]
      · simp [dictSet, dictGet, hk, hk', ih]

/-- C2 (claim): the classifier's simulation clock starts at 0 and
`parse_line` changes it exactly when the dispatch reaches the
"Simulation Time Elapsed" branch (the line contains that substring and not
the earlier "Task completed" one) and the strict regex extracts N — in
which case the clock becomes exactly N, with no monotonicity clamp; every
other line leaves the clock unchanged (including the exception path, where
`getD st` reads the state at the raise). -/
theorem simulation_clock_rule :
    initialState.simulation_time = 0 ∧
    ∀ (st : ParserState) (line : List Char),
      ((parse_line st line).getD st).simulation_time =
        if hasSub tcSub line = false ∧ hasSub simSub line = true then
          match searchL simAt line with
          | some n => n
          | none => st.simulation_time
        else st.simulation_time := by
  refine ⟨rfl, ?_⟩
  intro st line
  unfold parse_line
  cases h1 : hasSub tcSub line with
  | true =>
    simp only [Bool.true_eq_false, false_and, if_false, if_true, Option.getD_some]
    unfold _parse_task_completion
    cases searchL tcAt line with
    | none => rfl
    | some r => obtain ⟨n, c, u⟩ := r; rfl
  | false =>
  cases h2 : hasSub simSub line with
  | true =>
    simp only [Bool.false_eq_true, if_false, if_true, true_and, and_true,
      Option.getD_some, eq_self_iff_true]
    unfold _parse_simulation_time
    cases searchL simAt line with
    | none => simp
    | some n => simp
  | false =>
  simp only [Bool.false_eq_true, if_false, false_and, and_false]
  cases h3 : hasSub schedSub line with
  | true =>
    simp only [if_true, Option.getD_some]
    unfold _parse_scheduler_state
    cases searchL schedAt line with
    | none => rfl
    | some r => obtain ⟨a, b⟩ := r; rfl
  | false =>
  simp only [Bool.false_eq_true, if_false]
  cases h4 : hasSub ctxSub line with
  | true =>
    simp only [if_true, Option.getD_some]
    unfold _parse_context_switch
    cases searchL ctxAt line with
    | none => rfl
    | some r => obtain ⟨a, b, c⟩ := r; rfl
  | false =>
  simp only [Bool.false_eq_true, if_false]
  cases h5 : hasSub emgSub line with
  | true =>
    simp only [if_true, Option.getD_some]
    unfold _parse_emergency
    cases searchL emgAt line with
    | none => rfl
    | some m => rfl
  | false =>
  simp only [Bool.false_eq_true, if_false]
  cases h6 : hasSub safSub line with
  | true => simp only [if_true, Option.getD_some]; rfl
  | false =>
  simp only [Bool.false_eq_true, if_false]
  cases h7 : hasSub timSub line with
  | true => simp only [if_true, Option.getD_some]; rfl
  | false =>
  simp only [Bool.false_eq_true, if_false]
  cases h8 : (searchL memAt line).isSome with
  | true =>
    simp only [if_true, Option.getD_some]
    unfold _parse_memory_data
    cases searchL memAt line with
    | none => rfl
    | some r => obtain ⟨a, b⟩ := r; rfl
  | false =>
  simp only [Bool.false_eq_true, if_false]
  cases h9 : (searchL faultAt line).isSome with
  | true =>
    simp only [if_true]
    unfold _parse_fault_detection
    cases searchL faultAt line with
    | none => rfl
    | some r =>
      obtain ⟨c, t⟩ := r
      cases hv : dictGet st.tasks "fault_cycles" with
      | none => rfl
      | some v => cases v <;> rfl
  | false => simp only [Bool.false_eq_true, if_false, Option.getD_some]

/-- C3 (claim): a line matching none of the dispatch predicates yields no
event, raises nothing and leaves the state unchanged; and in each branch
whose predicate is a substring containment with a stricter field regex
(task completion, simulation time, scheduler state, context switch,
emergency), failure of the stricter regex degrades to the same no-op.
(The safety-violation and timing-report branches have no stricter regex,
and the memory and fault branches are dispatched on the full regex itself,
so no such degradation case exists for them.) -/
theorem unmatched_lines_are_noops (st : ParserState) (line : List Char) :
    (noBranch line = true → parse_line st line = some st) ∧
    (hasSub tcSub line = true → searchL tcAt line = none →
      parse_line st line = some st) ∧
    (hasSub tcSub line = false → hasSub simSub line = true →
      searchL simAt line = none → parse_line st line = some st) ∧
    (hasSub tcSub line = false → hasSub simSub line = false →
      hasSub schedSub line = true → searchL schedAt line = none →
      parse_line st line = some st) ∧
    (hasSub tcSub line = false → hasSub simSub line = false →
      hasSub schedSub line = false → hasSub ctxSub line = true →
      searchL ctxAt line = none → parse_line st line = some st) ∧
    (hasSub tcSub line = false → hasSub simSub line = false →
      hasSub schedSub line = false → hasSub ctxSub line = false →
      hasSub emgSub line = true → searchL emgAt line = none →
      parse_line st line = some st) := by
  refine ⟨?_, ?_, ?_, ?_, ?_, ?_⟩
  · intro hn
    simp only [noBranch, Bool.and_eq_true, Bool.not_eq_true'] at hn
    obtain ⟨⟨⟨⟨⟨⟨⟨⟨n1, n2⟩, n3⟩, n4⟩, n5⟩, n6⟩, n7⟩, n8⟩, n9⟩ := hn
    simp [parse_line, n1, n2, n3, n4, n5, n6, n7, n8, n9]
  · intro h1 hx
    simp [parse_line, h1, _parse_task_completion, hx]
  · intro h1 h2 hx
    simp [parse_line, h1, h2, _parse_simulation_time, hx]
  · intro h1 h2 h3 hx
    simp [parse_line, h1, h2, h3, _parse_scheduler_state, hx]
  · intro h1 h2 h3 h4 hx
    simp [parse_line, h1, h2, h3, h4, _parse_context_switch, hx]
  · intro h1 h2 h3 h4 h5 hx
    simp [parse_line, h1, h2, h3, h4, h5, _parse_emergency, hx]

/-- Witness for C3: a plain chatter line is a no-op, and a line containing
the "EMERGENCY:" marker but not the full `<err> critical_tasks:` pattern
also degrades to a no-op. -/
theorem unmatched_lines_are_noops_witness :
    noBranch "hello world".toList = true ∧
    parse_line initialState "hello world".toList = some initialState ∧
    hasSub emgSub "some EMERGENCY: chatter".toList = true ∧
    searchL emgAt "some EMERGENCY: chatter".toList = none ∧
    parse_line initialState "some EMERGENCY: chatter".toList = some initialState := by
  refine ⟨by decide, (unmatched_lines_are_noops initialState _).1 (by decide),
    by decide, by decide, ?_⟩
  exact (unmatched_lines_are_noops initialState _).2.2.2.2.2 (by decide) (by decide)
    (by decide) (by decide) (by decide) (by decide)

/-- C1 counterexample: after a "Simulation Time Elapsed: 10 seconds" line
the clock is 10, yet the TaskCompletion record stored for the following
completion line carries no simulation-time value at all (neither a
`simulation_time` nor a `simulation_seconds` key), and neither does the
ContextSwitch record appended to `scheduler_events`: the claim that every
produced event record carries the clock value is false on the code. -/
theorem taskcompletion_not_stamped_counterexample :
    ((runLines initialState
        ["<inf> mission_critical: Simulation Time Elapsed: 10 seconds".toList,
         "<inf> mod: Navigation Task completed 3 cycles".toList,
         "<dbg> timing_analysis: Context switch: 0xab -> 0xcd (total: 42)".toList]).bind
      (fun st => dictGet st.tasks "Navigation")).map simStampOf = some none ∧
    ((runLines initialState
        ["<inf> mission_critical: Simulation Time Elapsed: 10 seconds".toList,
         "<inf> mod: Navigation Task completed 3 cycles".toList,
         "<dbg> timing_analysis: Context switch: 0xab -> 0xcd (total: 42)".toList]).bind
      (fun st => st.scheduler_events.head?)).map simStampOf = some none ∧
    (runLines initialState
        ["<inf> mission_critical: Simulation Time Elapsed: 10 seconds".toList,
         "<inf> mod: Navigation Task completed 3 cycles".toList,
         "<dbg> timing_analysis: Context switch: 0xab -> 0xcd (total: 42)".toList]).map
      ParserState.simulation_time = some 10 := by
  exact ⟨rfl, rfl, rfl⟩

/-- C1 as amended: records already stored are never modified (each event
list is only extended), every record `parse_line` appends to
`timing_data`, `emergency_events`, `safety_violations` or `memory_data`
carries a simulation-time value equal to the clock as of the moment the
line was classified, a record appended to `scheduler_events` either
carries that clock value (scheduler-state branch) or is a context-switch
record carrying none, and the completion record stored for a
task-completion line carries no simulation-time value at all. -/
theorem stamped_events_carry_clock (st : ParserState) (line : List Char)
    (st' : ParserState) (h : parse_line st line = some st') :
    (st'.timing_data.take st.timing_data.length = st.timing_data ∧
     st'.scheduler_events.take st.scheduler_events.length = st.scheduler_events ∧
     st'.memory_data.take st.memory_data.length = st.memory_data ∧
     st'.emergency_events.take st.emergency_events.length = st.emergency_events ∧
     st'.safety_violations.take st.safety_violations.length = st.safety_violations) ∧
    (∀ v ∈ st'.timing_data.drop st.timing_data.length,
      simStampOf v = some (Val.int st'.simulation_time)) ∧
    (∀ v ∈ st'.emergency_events.drop st.emergency_events.length,
      simStampOf v = some (Val.int st'.simulation_time)) ∧
    (∀ v ∈ st'.safety_violations.drop st.safety_violations.length,
      simStampOf v = some (Val.int st'.simulation_time)) ∧
    (∀ v ∈ st'.memory_data.drop st.memory_data.length,
      simStampOf v = some (Val.int st'.simulation_time)) ∧
    (∀ v ∈ st'.scheduler_events.drop st.scheduler_events.length,
      simStampOf v = some (Val.int st'.simulation_time) ∨
        (dictGetV v "type" = some (Val.str "context_switch") ∧ simStampOf v = none)) ∧
    (∀ (name : String) (count : Int) (unit : String),
      hasSub tcSub line = true → searchL tcAt line = some (name, count, unit) →
      dictGet st'.tasks name = some (taskVal count unit (searchL tsAt line)) ∧
      simStampOf (taskVal count unit (searchL tsAt line)) = none) := by
  revert h
  unfold parse_line
  cases h1 : hasSub tcSub line with
  | true =>
    simp only [if_true]
    intro h
    rw [Option.some_inj] at h
    subst h
    unfold _parse_task_completion
    cases htc : searchL tcAt line with
    | none =>
      refine ⟨⟨List.take_length _, List.take_length _, List.take_length _,
        List.take_length _, List.take_length _⟩, ?_, ?_, ?_, ?_, ?_, ?_⟩ <;>
        simp [List.drop_length, htc]
    | some r =>
      obtain ⟨n₀, c₀, u₀⟩ := r
      refine ⟨⟨List.take_length _, List.take_length _, List.take_length _,
        List.take_length _, List.take_length _⟩, ?_, ?_, ?_, ?_, ?_, ?_⟩
      · simp [List.drop_length]
      · simp [List.drop_length]
      · simp [List.drop_length]
      · simp [List.drop_length]
      · simp [List.drop_length]
      · intro name count unit _ hS
        rw [Option.some_inj, Prod.mk.injEq, Prod.mk.injEq] at hS
        obtain ⟨e1, e2, e3⟩ := hS
        subst e1; subst e2; subst e3
        exact ⟨dictGet_dictSet_self _ _ _, rfl⟩
  | false =>
  cases h2 : hasSub simSub line with
  | true =>
    simp only [if_true, Bool.false_eq_true, if_false]
    intro h
    rw [Option.some_inj] at h
    subst h
    unfold _parse_simulation_time
    cases hsim : searchL simAt line with
    | none =>
      refine ⟨⟨List.take_length _, List.take_length _, List.take_length _,
        List.take_length _, List.take_length _⟩, ?_, ?_, ?_, ?_, ?_,
        fun n c u hF => hF.elim⟩ <;> simp [List.drop_length]
    | some n =>
      refine ⟨⟨List.take_left _ _, List.take_length _, List.take_length _,
        List.take_length _, List.take_length _⟩, ?_, ?_, ?_, ?_, ?_,
        fun n c u hF => hF.elim⟩
      · intro v hv
        rw [List.drop_left] at hv
        rw [List.mem_singleton] at hv
        subst hv
        rfl
      all_goals simp [List.drop_length]
  | false =>
  cases h3 : hasSub schedSub line with
  | true =>
    simp only [if_true, Bool.false_eq_true, if_false]
    intro h
    rw [Option.some_inj] at h
    subst h
    unfold _parse_scheduler_state
    cases hs : searchL schedAt line with
    | none =>
      refine ⟨⟨List.take_length _, List.take_length _, List.take_length _,
        List.take_length _, List.take_length _⟩, ?_, ?_, ?_, ?_, ?_,
        fun n c u hF => hF.elim⟩ <;> simp [List.drop_length]
    | some r =>
      obtain ⟨tid, pr⟩ := r
      refine ⟨⟨List.take_length _, List.take_left _ _, List.take_length _,
        List.take_length _, List.take_length _⟩, ?_, ?_, ?_, ?_, ?_,
        fun n c u hF => hF.elim⟩
      · simp [List.drop_length]
      · simp [List.drop_length]
      · simp [List.drop_length]
      · simp [List.drop_length]
      · intro v hv
        rw [List.drop_left] at hv
        rw [List.mem_singleton] at hv
        subst hv
        left
        rfl
  | false =>
  cases h4 : hasSub ctxSub line with
  | true =>
    simp only [if_true, Bool.false_eq_true, if_false]
    intro h
    rw [Option.some_inj] at h
    subst h
    unfold _parse_context_switch
    cases hs : searchL ctxAt line with
    | none =>
      refine ⟨⟨List.take_length _, List.take_length _, List.take_length _,
        List.take_length _, List.take_length _⟩, ?_, ?_, ?_, ?_, ?_,
        fun n c u hF => hF.elim⟩ <;> simp [List.drop_length]
    | some r =>
      obtain ⟨ft, tt, tot⟩ := r
      refine ⟨⟨List.take_length _, List.take_left _ _, List.take_length _,
        List.take_length _, List.take_length _⟩, ?_, ?_, ?_, ?_, ?_,
        fun n c u hF => hF.elim⟩
      · simp [List.drop_length]
      · simp [List.drop_length]
      · simp [List.drop_length]
      · simp [List.drop_length]
      · intro v hv
        rw [List.drop_left] at hv
        rw [List.mem_singleton] at hv
        subst hv
        right
        exact ⟨rfl, rfl⟩
  | false =>
  cases h5 : hasSub emgSub line with
  | true =>
    simp only [if_true, Bool.false_eq_true, if_false]
    intro h
    rw [Option.some_inj] at h
    subst h
    unfold _parse_emergency
    cases hs : searchL emgAt line with
    | none =>
      refine ⟨⟨List.take_length _, List.take_length _, List.take_length _,
        List.take_length _, List.take_length _⟩, ?_, ?_, ?_, ?_, ?_,
        fun n c u hF => hF.elim⟩ <;> simp [List.drop_length]
    | some m =>
      refine ⟨⟨List.take_length _, List.take_length _, List.take_length _,
        List.take_left _ _, List.take_length _⟩, ?_, ?_, ?_, ?_, ?_,
        fun n c u hF => hF.elim⟩
      · simp [List.drop_length]
      · intro v hv
        rw [List.drop_left] at hv
        rw [List.mem_singleton] at hv
        subst hv
        rfl
      all_goals simp [List.drop_length]
  | false =>
  cases h6 : hasSub safSub line with
  | true =>
    simp only [if_true, Bool.false_eq_true, if_false]
    intro h
    rw [Option.some_inj] at h
    subst h
    unfold _parse_safety_violation
    refine ⟨⟨List.take_length _, List.take_length _, List.take_length _,
      List.take_length _, List.take_left _ _⟩, ?_, ?_, ?_, ?_, ?_,
      fun n c u hF => hF.elim⟩
    · simp [List.drop_length]
    · simp [List.drop_length]
    · intro v hv
      rw [List.drop_left] at hv
      rw [List.mem_singleton] at hv
      subst hv
      rfl
    all_goals simp [List.drop_length]
  | false =>
  cases h7 : hasSub timSub line with
  | true =>
    simp only [if_true, Bool.false_eq_true, if_false]
    intro h
    rw [Option.some_inj] at h
    subst h
    unfold _parse_timing_report_start
    refine ⟨⟨List.take_left _ _, List.take_length _, List.take_length _,
      List.take_length _, List.take_length _⟩, ?_, ?_, ?_, ?_, ?_,
      fun n c u hF => hF.elim⟩
    · intro v hv
      rw [List.drop_left] at hv
      rw [List.mem_singleton] at hv
      subst hv
      rfl
    all_goals simp [List.drop_length]
  | false =>
  cases h8 : (searchL memAt line).isSome with
  | true =>
    simp only [if_true, Bool.false_eq_true, if_false]
    intro h
    rw [Option.some_inj] at h
    subst h
    unfold _parse_memory_data
    cases hs : searchL memAt line with
    | none =>
      refine ⟨⟨List.take_length _, List.take_length _, List.take_length _,
        List.take_length _, List.take_length _⟩, ?_, ?_, ?_, ?_, ?_,
        fun n c u hF => hF.elim⟩ <;> simp [List.drop_length]
    | some r =>
      obtain ⟨tidn, tp⟩ := r
      refine ⟨⟨List.take_length _, List.take_length _, List.take_left _ _,
        List.take_length _, List.take_length _⟩, ?_, ?_, ?_, ?_, ?_,
        fun n c u hF => hF.elim⟩
      · simp [List.drop_length]
      · simp [List.drop_length]
      · simp [List.drop_length]
      · intro v hv
        rw [List.drop_left] at hv
        rw [List.mem_singleton] at hv
        subst hv
        rfl
      · simp [List.drop_length]
  | false =>
  cases h9 : (searchL faultAt line).isSome with
  | true =>
    simp only [if_true, Bool.false_eq_true, if_false]
    unfold _parse_fault_detection
    cases hs : searchL faultAt line with
    | none =>
      intro h
      rw [Option.some_inj] at h
      subst h
      refine ⟨⟨List.take_length _, List.take_length _, List.take_length _,
        List.take_length _, List.take_length _⟩, ?_, ?_, ?_, ?_, ?_,
        fun n c u hF => hF.elim⟩ <;> simp [List.drop_length]
    | some r =>
      obtain ⟨cy, tid⟩ := r
      cases hv : dictGet st.tasks "fault_cycles" with
      | none =>
        intro h
        rw [Option.some_inj] at h
        subst h
        refine ⟨⟨List.take_length _, List.take_length _, List.take_length _,
          List.take_length _, List.take_length _⟩, ?_, ?_, ?_, ?_, ?_,
          fun n c u hF => hF.elim⟩ <;> simp [List.drop_length]
      | some v =>
        cases v with
        | list l =>
          intro h
          rw [Option.some_inj] at h
          subst h
          refine ⟨⟨List.take_length _, List.take_length _, List.take_length _,
            List.take_length _, List.take_length _⟩, ?_, ?_, ?_, ?_, ?_,
            fun n c u hF => hF.elim⟩ <;> simp [List.drop_length]
        | str s => intro h; exact absurd h (by simp)
        | int n => intro h; exact absurd h (by simp)
        | null => intro h; exact absurd h (by simp)
        | dict d => intro h; exact absurd h (by simp)
  | false =>
    simp only [Bool.false_eq_true, if_false]
    intro h
    rw [Option.some_inj] at h
    subst h
    refine ⟨⟨List.take_length _, List.take_length _, List.take_length _,
      List.take_length _, List.take_length _⟩, ?_, ?_, ?_, ?_, ?_,
      fun n c u hF => hF.elim⟩ <;> simp [List.drop_length]

/-- Witness for the amended C1: a concrete task-completion line stores the
extracted record, and that record carries no simulation-time value. -/
theorem stamped_events_carry_clock_witness :
    ((parse_line initialState "<inf> mod: Navigation Task completed 3 cycles".toList).bind
      (fun st => dictGet st.tasks "Navigation")) = some (taskVal 3 "cycles" none) ∧
    simStampOf (taskVal 3 "cycles" none) = none := by
  have hs : (parse_line initialState
      "<inf> mod: Navigation Task completed 3 cycles".toList).isSome = true := rfl
  cases hp : parse_line initialState
      "<inf> mod: Navigation Task completed 3 cycles".toList with
  | none => rw [hp] at hs; exact absurd hs (by decide)
  | some st' =>
    have h := (stamped_events_carry_clock initialState
        "<inf> mod: Navigation Task completed 3 cycles".toList st' hp).2.2.2.2.2.2
      "Navigation" 3 "cycles" (by decide) (by rfl)
    constructor
    · show dictGet st'.tasks "Navigation" = some (taskVal 3 "cycles" none)
      rw [h.1]
      rfl
    · exact h.2

/-- "Or else": first value if present, otherwise the second. -/
def orDefault (x y : Option Val) : Option Val :=
  match x with
  | some v => some v
  | none => y

/-- The effect of one classified line on the completion record stored under
a given task name: a matching completion line overwrites it with the newly
extracted record, any other line leaves it alone. -/
def lcStep (name : String) (acc : Option Val) (l : List Char) : Option Val :=
  match completionOf l with
  | some (n, c, u, ts) => if n = name then some (taskVal c u ts) else acc
  | none => acc

/-- The completion record of the last task-completion line for `name` in
the sequence, if any. -/
def lastCompletion (lines : List (List Char)) (name : String) : Option Val :=
  lines.foldl (lcStep name) none

theorem orDefault_some (v : Val) (y : Option Val) :
    orDefault (some v) y = some v := rfl

theorem orDefault_none (y : Option Val) : orDefault none y = y := rfl

theorem lcStep_or (name : String) (acc : Option Val) (l : List Char) :
    lcStep name acc l = orDefault (lcStep name none l) acc := by
  unfold lcStep
  cases hc : completionOf l with
  | none => rfl
  | some r =>
    obtain ⟨n, c, u, ts⟩ := r
    by_cases hn : n = name
    · simp [hn, orDefault]
    · simp [hn, orDefault]

theorem orDefault_assoc (a b c : Option Val) :
    orDefault (orDefault a b) c = orDefault a (orDefault b c) := by
  cases a <;> rfl

theorem lastCompletion_shift (name : String) (lines : List (List Char))
    (acc : Option Val) :
    lines.foldl (lcStep name) acc = orDefault (lastCompletion lines name) acc := by
  induction lines generalizing acc with
  | nil => rfl
  | cons l ls ih =>
    show ls.foldl (lcStep name) (lcStep name acc l) = _
    rw [ih (lcStep name acc l), lcStep_or, ← orDefault_assoc]
    have hcons : lastCompletion (l :: ls) name =
        orDefault (lastCompletion ls name) (lcStep name none l) := by
      show ls.foldl (lcStep name) (lcStep name none l) = _
      rw [ih (lcStep name none l)]
    rw [hcons]

/-- One `parse_line` step changes the stored completion record of a task
name (other than the reserved fault key) exactly as `lcStep` describes. -/
theorem parse_line_tasks_get (st : ParserState) (line : List Char)
    (st' : ParserState) (name : String) (hn : name ≠ "fault_cycles")
    (h : parse_line st line = some st') :
    dictGet st'.tasks name = lcStep name (dictGet st.tasks name) line := by
  revert h
  unfold parse_line lcStep completionOf
  cases h1 : hasSub tcSub line with
  | true =>
    simp only [if_true]
    intro h
    rw [Option.some_inj] at h
    subst h
    unfold _parse_task_completion
    cases htc : searchL tcAt line with
    | none => rfl
    | some r =>
      obtain ⟨n₀, c₀, u₀⟩ := r
      dsimp only [Option.map_some']
      by_cases hnn : n₀ = name
      · subst hnn
        simp only [if_pos rfl]
        exact dictGet_dictSet_self _ _ _
      · rw [if_neg hnn]
        exact dictGet_dictSet_ne _ _ _ _ hnn
  | false =>
  simp only [Bool.false_eq_true, if_false]
  cases h2 : hasSub simSub line with
  | true =>
    simp only [if_true]
    intro h
    rw [Option.some_inj] at h
    subst h
    unfold _parse_simulation_time
    cases searchL simAt line with
    | none => rfl
    | some n => rfl
  | false =>
  simp only [Bool.false_eq_true, if_false]
  cases h3 : hasSub schedSub line with
  | true =>
    simp only [if_true]
    intro h
    rw [Option.some_inj] at h
    subst h
    unfold _parse_scheduler_state
    cases searchL schedAt line with
    | none => rfl
    | some r => obtain ⟨a, b⟩ := r; rfl
  | false =>
  simp only [Bool.false_eq_true, if_false]
  cases h4 : hasSub ctxSub line with
  | true =>
    simp only [if_true]
    intro h
    rw [Option.some_inj] at h
    subst h
    unfold _parse_context_switch
    cases searchL ctxAt line with
    | none => rfl
    | some r => obtain ⟨a, b, c⟩ := r; rfl
  | false =>
  simp only [Bool.false_eq_true, if_false]
  cases h5 : hasSub emgSub line with
  | true =>
    simp only [if_true]
    intro h
    rw [Option.some_inj] at h
    subst h
    unfold _parse_emergency
    cases searchL emgAt line with
    | none => rfl
    | some m => rfl
  | false =>
  simp only [Bool.false_eq_true, if_false]
  cases h6 : hasSub safSub line with
  | true =>
    simp only [if_true]
    intro h
    rw [Option.some_inj] at h
    subst h
    rfl
  | false =>
  simp only [Bool.false_eq_true, if_false]
  cases h7 : hasSub timSub line with
  | true =>
    simp only [if_true]
    intro h
    rw [Option.some_inj] at h
    subst h
    rfl
  | false =>
  simp only [Bool.false_eq_true, if_false]
  cases h8 : (searchL memAt line).isSome with
  | true =>
    simp only [if_true]
    intro h
    rw [Option.some_inj] at h
    subst h
    unfold _parse_memory_data
    cases searchL memAt line with
    | none => rfl
    | some r => obtain ⟨a, b⟩ := r; rfl
  | false =>
  simp only [Bool.false_eq_true, if_false]
  cases h9 : (searchL faultAt line).isSome with
  | true =>
    simp only [if_true]
    unfold _parse_fault_detection
    cases searchL faultAt line with
    | none =>
      intro h
      rw [Option.some_inj] at h
      subst h
      rfl
    | some r =>
      obtain ⟨cy, tid⟩ := r
      cases dictGet st.tasks "fault_cycles" with
      | none =>
        intro h
        rw [Option.some_inj] at h
        subst h
        exact dictGet_dictSet_ne _ _ _ _ (fun e => hn e.symm)
      | some v =>
        cases v with
        | list l =>
          intro h
          rw [Option.some_inj] at h
          subst h
          exact dictGet_dictSet_ne _ _ _ _ (fun e => hn e.symm)
        | str s => intro h; exact absurd h (by simp)
        | int n => intro h; exact absurd h (by simp)
        | null => intro h; exact absurd h (by simp)
        | dict d => intro h; exact absurd h (by simp)
  | false =>
    simp only [Bool.false_eq_true, if_false]
    intro h
    rw [Option.some_inj] at h
    subst h
    rfl

theorem runLines_tasks_get (lines : List (List Char)) (st st' : ParserState)
    (name : String) (hn : name ≠ "fault_cycles")
    (h : runLines st lines = some st') :
    dictGet st'.tasks name =
      orDefault (lastCompletion lines name) (dictGet st.tasks name) := by
  induction lines generalizing st with
  | nil =>
    unfold runLines at h
    rw [Option.some_inj] at h
    subst h
    rfl
  | cons l ls ih =>
    unfold runLines at h
    cases hp : parse_line st l with
    | none => rw [hp] at h; exact absurd h (by simp)
    | some st₁ =>
      rw [hp] at h
      have hstep := parse_line_tasks_get st l st₁ name hn hp
      have hrec := ih st₁ h
      rw [hrec, hstep, lcStep_or, ← orDefault_assoc]
      have hcons : lastCompletion (l :: ls) name =
          orDefault (lastCompletion ls name) (lcStep name none l) := by
        show ls.foldl (lcStep name) (lcStep name none l) = _
        rw [lastCompletion_shift]
      rw [hcons]

/-- C8 (claim): after any line sequence the per-task store holds exactly
the last completion record extracted for each task name — a later
completion line for the same name overwrites the earlier record's count,
unit and timestamp, and counts are never accumulated.  (The reserved
`fault_cycles` key is excluded: the fault branch writes it, see C9/C10.) -/
theorem last_completion_wins (lines : List (List Char)) (name : String)
    (hn : name ≠ "fault_cycles") (st' : ParserState)
    (h : runLines initialState lines = some st') :
    dictGet st'.tasks name = lastCompletion lines name := by
  rw [runLines_tasks_get lines initialState st' name hn h]
  cases lastCompletion lines name <;> rfl

/-- Witness for C8: two completions for "Navigation" — the stored record is
the second one (count 4, unit "updates"), not an accumulation. -/
theorem last_completion_wins_witness :
    ((runLines initialState
        ["<inf> mod: Navigation Task completed 3 cycles".toList,
         "<inf> mod: Navigation Task completed 4 updates".toList]).bind
      (fun st => dictGet st.tasks "Navigation")) = some (taskVal 4 "updates" none) := by
  have hs : (runLines initialState
      ["<inf> mod: Navigation Task completed 3 cycles".toList,
       "<inf> mod: Navigation Task completed 4 updates".toList]).isSome = true := rfl
  cases hrun : runLines initialState
      ["<inf> mod: Navigation Task completed 3 cycles".toList,
       "<inf> mod: Navigation Task completed 4 updates".toList] with
  | none => rw [hrun] at hs; exact absurd hs (by decide)
  | some st' =>
    have h := last_completion_wins
      ["<inf> mod: Navigation Task completed 3 cycles".toList,
       "<inf> mod: Navigation Task completed 4 updates".toList]
      "Navigation" (by decide) st' hrun
    show dictGet st'.tasks "Navigation" = some (taskVal 4 "updates" none)
    rw [h]
    rfl

/-- C9 counterexample: fault records and task-completion records live in
the same `self.tasks` mapping, the fault sequence under the literal key
`fault_cycles`.  After one fault line the key holds a one-element list;
a completion line for a task literally named `fault_cycles` then
overwrites the whole fault sequence with a plain completion record — the
two kinds of records can collide, refuting "can never collide with or
overwrite one another". -/
theorem fault_key_collision_counterexample :
    ((runLines initialState
        ["<inf> critical_tasks: FAULT: Detection cycle 1 - Thread 0xdead".toList]).bind
      (fun st => dictGet st.tasks "fault_cycles")).map
        (fun v => match v with | Val.list l => l.length | _ => 99) = some 1 ∧
    ((runLines initialState
        ["<inf> critical_tasks: FAULT: Detection cycle 1 - Thread 0xdead".toList,
         "<inf> mod: fault_cycles Task completed 3 cycles".toList]).bind
      (fun st => dictGet st.tasks "fault_cycles")) = some (taskVal 3 "cycles" none) := by
  exact ⟨rfl, rfl⟩

/-- C9 as amended: fault-detection lines accumulate an ordered sequence of
records (cycle, hexadecimal thread id, timestamp, simulation time) in
their input order, stored under the reserved key `fault_cycles` inside the
same `tasks` mapping that holds completion records; a completion record
for a task literally named `fault_cycles` can overwrite the sequence (see
the counterexample), and a fault line arriving while that key holds a
non-list value raises. -/
theorem fault_records_accumulate (st : ParserState) (line : List Char)
    (cycle : Int) (tid : String)
    (h1 : hasSub tcSub line = false) (h2 : hasSub simSub line = false)
    (h3 : hasSub schedSub line = false) (h4 : hasSub ctxSub line = false)
    (h5 : hasSub emgSub line = false) (h6 : hasSub safSub line = false)
    (h7 : hasSub timSub line = false) (h8 : searchL memAt line = none)
    (h9 : searchL faultAt line = some (cycle, tid)) :
    (dictGet st.tasks "fault_cycles" = none →
      parse_line st line = some ({ st with tasks := dictSet st.tasks "fault_cycles" (Val.list [faultVal cycle tid (searchL tsAt line) st.simulation_time]) })) ∧
    (∀ l : List Val, dictGet st.tasks "fault_cycles" = some (Val.list l) →
      parse_line st line = some ({ st with tasks := dictSet st.tasks "fault_cycles" (Val.list (l ++ [faultVal cycle tid (searchL tsAt line) st.simulation_time])) })) ∧
    (∀ d : List (String × Val), dictGet st.tasks "fault_cycles" = some (Val.dict d) →
      parse_line st line = none) := by
  unfold parse_line _parse_fault_detection
  simp only [h1, h2, h3, h4, h5, h6, h7, h8, h9, Bool.false_eq_true, if_false,
    Option.isSome_none, Option.isSome_some, if_true]
  refine ⟨?_, ?_, ?_⟩
  · intro hfc
    rw [hfc]
  · intro l hfc
    rw [hfc]
  · intro d hfc
    rw [hfc]

/-- Witness for the amended C9: a concrete fault line creates the
`fault_cycles` entry as a one-element ordered list. -/
theorem fault_records_accumulate_witness :
    parse_line initialState
      "<inf> critical_tasks: FAULT: Detection cycle 3 - Thread 0xdead".toList =
      some ({ initialState with
        tasks := [("fault_cycles", Val.list [faultVal 3 "0xdead" none 0])] }) := by
  have h := (fault_records_accumulate initialState
    "<inf> critical_tasks: FAULT: Detection cycle 3 - Thread 0xdead".toList
    3 "0xdead" (by decide) (by decide) (by decide) (by decide) (by decide)
    (by decide) (by decide) (by decide) (by decide)).1 rfl
  exact h

/-- Key written to `self.tasks` by one classified line: the extracted task
name for a completion line, the reserved `fault_cycles` key for a
fault-detection line, nothing otherwise. -/
def writeOf (line : List Char) : Option String :=
  match completionOf line with
  | some r => some r.1
  | none => if faultFires line then some "fault_cycles" else none

/-- Insertion-ordered key insertion, as performed by `dictSet` on the key
list of a Python dictionary. -/
def insertKey (ks : List String) (k : String) : List String :=
  if k ∈ ks then ks else ks ++ [k]

/-- The task names extracted from the completion lines of a sequence, in
order, with multiplicity. -/
def completedNames (lines : List (List Char)) : List String :=
  lines.filterMap (fun l => (completionOf l).map (fun r => r.1))

theorem dictSet_keys (d : List (String × Val)) (k : String) (v : Val) :
    (dictSet d k v).map Prod.fst = insertKey (d.map Prod.fst) k := by
  induction d with
  | nil => simp [dictSet, insertKey]
  | cons p rest ih =>
    obtain ⟨k₁, v₁⟩ := p
    by_cases hk : k₁ = k
    · subst hk
      simp [dictSet, insertKey]
    · by_cases hm : k ∈ rest.map Prod.fst
      · simp [dictSet, insertKey, hk, ih, hm, Ne.symm hk]
      · simp [dictSet, insertKey, hk, ih, hm, Ne.symm hk]

theorem parse_line_keys (st : ParserState) (line : List Char)
    (st' : ParserState) (h : parse_line st line = some st') :
    st'.tasks.map Prod.fst =
      match writeOf line with
      | some k => insertKey (st.tasks.map Prod.fst) k
      | none => st.tasks.map Prod.fst := by
  revert h
  unfold parse_line
  cases h1 : hasSub tcSub line with
  | true =>
    simp only [if_true]
    intro h
    rw [Option.some_inj] at h
    subst h
    unfold _parse_task_completion
    cases htc : searchL tcAt line with
    | none =>
      have hw : writeOf line = none := by
        simp [writeOf, completionOf, h1, htc, faultFires]
      rw [hw]
    | some r =>
      obtain ⟨n₀, c₀, u₀⟩ := r
      have hw : writeOf line = some n₀ := by
        simp [writeOf, completionOf, h1, htc]
      rw [hw]
      exact dictSet_keys _ _ _
  | false =>
  have hcn : completionOf line = none := by simp [completionOf, h1]
  simp only [Bool.false_eq_true, if_false]
  cases h2 : hasSub simSub line with
  | true =>
    have hw : writeOf line = none := by simp [writeOf, hcn, faultFires, h2]
    simp only [if_true]
    intro h
    rw [Option.some_inj] at h
    subst h
    rw [hw]
    unfold _parse_simulation_time
    cases searchL simAt line with
    | none => rfl
    | some n => rfl
  | false =>
  simp only [Bool.false_eq_true, if_false]
  cases h3 : hasSub schedSub line with
  | true =>
    have hw : writeOf line = none := by simp [writeOf, hcn, faultFires, h3]
    simp only [if_true]
    intro h
    rw [Option.some_inj] at h
    subst h
    rw [hw]
    unfold _parse_scheduler_state
    cases searchL schedAt line with
    | none => rfl
    | some r => obtain ⟨a, b⟩ := r; rfl
  | false =>
  cases h4 : hasSub ctxSub line with
  | true =>
    have hw : writeOf line = none := by simp [writeOf, hcn, faultFires, h4]
    simp only [if_true, Bool.false_eq_true, if_false]
    intro h
    rw [Option.some_inj] at h
    subst h
    rw [hw]
    unfold _parse_context_switch
    cases searchL ctxAt line with
    | none => rfl
    | some r => obtain ⟨a, b, c⟩ := r; rfl
  | false =>
  cases h5 : hasSub emgSub line with
  | true =>
    have hw : writeOf line = none := by simp [writeOf, hcn, faultFires, h5]
    simp only [if_true, Bool.false_eq_true, if_false]
    intro h
    rw [Option.some_inj] at h
    subst h
    rw [hw]
    unfold _parse_emergency
    cases searchL emgAt line with
    | none => rfl
    | some m => rfl
  | false =>
  cases h6 : hasSub safSub line with
  | true =>
    have hw : writeOf line = none := by simp [writeOf, hcn, faultFires, h6]
    simp only [if_true, Bool.false_eq_true, if_false]
    intro h
    rw [Option.some_inj] at h
    subst h
    rw [hw]
    rfl
  | false =>
  cases h7 : hasSub timSub line with
  | true =>
    have hw : writeOf line = none := by simp [writeOf, hcn, faultFires, h7]
    simp only [if_true, Bool.false_eq_true, if_false]
    intro h
    rw [Option.some_inj] at h
    subst h
    rw [hw]
    rfl
  | false =>
  cases h8 : (searchL memAt line).isSome with
  | true =>
    have hw : writeOf line = none := by simp [writeOf, hcn, faultFires, h8]
    simp only [if_true, Bool.false_eq_true, if_false]
    intro h
    rw [Option.some_inj] at h
    subst h
    rw [hw]
    unfold _parse_memory_data
    cases searchL memAt line with
    | none => rfl
    | some r => obtain ⟨a, b⟩ := r; rfl
  | false =>
  cases h9 : (searchL faultAt line).isSome with
  | true =>
    have hw : writeOf line = some "fault_cycles" := by
      simp [writeOf, hcn, faultFires, h1, h2, h3, h4, h5, h6, h7, h8, h9]
    simp only [if_true, Bool.false_eq_true, if_false]
    unfold _parse_fault_detection
    cases hf : searchL faultAt line with
    | none =>
      rw [hf] at h9
      exact absurd h9 (by decide)
    | some r =>
      obtain ⟨cy, tid⟩ := r
      cases dictGet st.tasks "fault_cycles" with
      | none =>
        intro h
        rw [Option.some_inj] at h
        subst h
        rw [hw]
        exact dictSet_keys _ _ _
      | some v =>
        cases v with
        | list l =>
          intro h
          rw [Option.some_inj] at h
          subst h
          rw [hw]
          exact dictSet_keys _ _ _
        | str s => intro h; exact absurd h (by simp)
        | int n => intro h; exact absurd h (by simp)
        | null => intro h; exact absurd h (by simp)
        | dict d => intro h; exact absurd h (by simp)
  | false =>
    have hw : writeOf line = none := by simp [writeOf, hcn, faultFires, h9]
    simp only [Bool.false_eq_true, if_false]
    intro h
    rw [Option.some_inj] at h
    subst h
    rw [hw]

theorem runLines_keys (lines : List (List Char)) (st st' : ParserState)
    (h : runLines st lines = some st') :
    st'.tasks.map Prod.fst =
      (lines.filterMap writeOf).foldl insertKey (st.tasks.map Prod.fst) := by
  induction lines generalizing st with
  | nil =>
    unfold runLines at h
    rw [Option.some_inj] at h
    subst h
    rfl
  | cons l ls ih =>
    unfold runLines at h
    cases hp : parse_line st l with
    | none => rw [hp] at h; exact absurd h (by simp)
    | some st₁ =>
      rw [hp] at h
      have hstep := parse_line_keys st l st₁ hp
      have hrec := ih st₁ h
      rw [hrec, hstep]
      cases hwl : writeOf l with
      | some k =>
        dsimp only
        rw [List.filterMap_cons_some hwl, List.foldl_cons]
      | none =>
        dsimp only
        rw [List.filterMap_cons_none hwl]

theorem insertKey_nodup (ks : List String) (k : String) (h : ks.Nodup) :
    (insertKey ks k).Nodup := by
  unfold insertKey
  by_cases hm : k ∈ ks
  · simp [hm, h]
  · simp [hm, List.nodup_append, h]

theorem insertKey_toFinset (ks : List String) (k : String) :
    (insertKey ks k).toFinset = insert k ks.toFinset := by
  unfold insertKey
  by_cases hm : k ∈ ks
  · rw [if_pos hm, Finset.insert_eq_self.mpr (List.mem_toFinset.mpr hm)]
  · rw [if_neg hm, List.toFinset_append]
    simp [Finset.union_comm, Finset.insert_eq]

theorem foldl_insertKey_nodup (ws ks : List String) (h : ks.Nodup) :
    (ws.foldl insertKey ks).Nodup := by
  induction ws generalizing ks with
  | nil => exact h
  | cons w ws ih => exact ih _ (insertKey_nodup ks w h)

theorem foldl_insertKey_toFinset (ws ks : List String) :
    (ws.foldl insertKey ks).toFinset = ks.toFinset ∪ ws.toFinset := by
  induction ws generalizing ks with
  | nil => simp
  | cons w ws ih =>
    rw [List.foldl_cons, ih, insertKey_toFinset]
    rw [List.toFinset_cons, Finset.insert_union, Finset.union_insert]

/-- C10: when at least one fault-detection line fired and no completed task
is literally named `fault_cycles`, the exported summary's `total_tasks`
equals the number of distinct completed task names plus one, because the
fault-cycle sequence occupies one extra entry (key `fault_cycles`) in the
same `tasks` mapping the summary counts; that mapping is exported both as
the summary's `task_performance` and as the top-level `tasks` section. -/
theorem fault_entry_counts_as_task (lines : List (List Char))
    (st' : ParserState) (h : runLines initialState lines = some st')
    (hf : ∃ l, l ∈ lines ∧ faultFires l = true)
    (hn : "fault_cycles" ∉ completedNames lines) :
    dictGet (get_summary st') "total_tasks" =
      some (Val.int ((completedNames lines).toFinset.card + 1)) ∧
    dictGet (get_summary st') "task_performance" = some (Val.dict st'.tasks) ∧
    dictGet (export_data st') "tasks" = some (Val.dict st'.tasks) ∧
    st'.tasks.length = (completedNames lines).toFinset.card + 1 := by
  have hkeys := runLines_keys lines initialState st' h
  have hws : ((lines.filterMap writeOf).toFinset : Finset String) =
      insert "fault_cycles" (completedNames lines).toFinset := by
    apply Finset.ext
    intro x
    rw [List.mem_toFinset, List.mem_filterMap, Finset.mem_insert, List.mem_toFinset]
    constructor
    · rintro ⟨l, hl, hwl⟩
      unfold writeOf at hwl
      cases hc : completionOf l with
      | some r =>
        rw [hc] at hwl
        rw [Option.some_inj] at hwl
        subst hwl
        right
        exact List.mem_filterMap.mpr ⟨l, hl, by rw [hc]; rfl⟩
      | none =>
        rw [hc] at hwl
        by_cases hff : faultFires l = true
        · rw [if_pos hff] at hwl
          rw [Option.some_inj] at hwl
          left
          exact hwl.symm
        · rw [if_neg hff] at hwl
          exact absurd hwl (by simp)
    · rintro (hx | hx)
      · obtain ⟨l, hl, hff⟩ := hf
        refine ⟨l, hl, ?_⟩
        have hc : completionOf l = none := by
          have h1 : hasSub tcSub l = false := by
            have := hff
            unfold faultFires at this
            simp only [Bool.and_eq_true, Bool.not_eq_true'] at this
            exact this.1.1.1.1.1.1.1.1
          simp [completionOf, h1]
        unfold writeOf
        rw [hc, if_pos hff, hx]
      · obtain ⟨l, hl, hcl⟩ := List.mem_filterMap.mp hx
        refine ⟨l, hl, ?_⟩
        cases hc : completionOf l with
        | none => rw [hc] at hcl; exact absurd hcl (by simp)
        | some r =>
          rw [hc] at hcl
          rw [Option.map_some', Option.some_inj] at hcl
          unfold writeOf
          rw [hc]
          dsimp only
          rw [hcl]
  have hlen : st'.tasks.length = (completedNames lines).toFinset.card + 1 := by
    have hmap : st'.tasks.length = (st'.tasks.map Prod.fst).length :=
      (List.length_map _ _).symm
    rw [hmap, hkeys]
    have hnd : ((lines.filterMap writeOf).foldl insertKey
        (initialState.tasks.map Prod.fst)).Nodup :=
      foldl_insertKey_nodup _ _ (by simp [initialState])
    rw [← List.toFinset_card_of_nodup hnd, foldl_insertKey_toFinset]
    have : (initialState.tasks.map Prod.fst).toFinset = (∅ : Finset String) := rfl
    rw [this, Finset.empty_union, hws,
      Finset.card_insert_of_not_mem (fun hc => hn (List.mem_toFinset.mp hc))]
  refine ⟨?_, rfl, rfl, hlen⟩
  show some (Val.int st'.tasks.length) = _
  rw [hlen]
  norm_cast

/-- Witness for C10: one fault line and one completion line give
`total_tasks = 2` (one distinct completed task name plus the fault entry). -/
theorem fault_entry_counts_as_task_witness :
    ((runLines initialState
        ["<inf> critical_tasks: FAULT: Detection cycle 1 - Thread 0xdead".toList,
         "<inf> mod: Navigation Task completed 3 cycles".toList]).map
      (fun st => dictGet (get_summary st) "total_tasks")) = some (some (Val.int 2)) := by
  have hs : (runLines initialState
      ["<inf> critical_tasks: FAULT: Detection cycle 1 - Thread 0xdead".toList,
       "<inf> mod: Navigation Task completed 3 cycles".toList]).isSome = true := rfl
  cases hrun : runLines initialState
      ["<inf> critical_tasks: FAULT: Detection cycle 1 - Thread 0xdead".toList,
       "<inf> mod: Navigation Task completed 3 cycles".toList] with
  | none => rw [hrun] at hs; exact absurd hs (by decide)
  | some st' =>
    have h := fault_entry_counts_as_task
      ["<inf> critical_tasks: FAULT: Detection cycle 1 - Thread 0xdead".toList,
       "<inf> mod: Navigation Task completed 3 cycles".toList] st' hrun
      ⟨"<inf> critical_tasks: FAULT: Detection cycle 1 - Thread 0xdead".toList,
        by simp, by decide⟩ (by decide)
    have hcard : (completedNames
        ["<inf> critical_tasks: FAULT: Detection cycle 1 - Thread 0xdead".toList,
         "<inf> mod: Navigation Task completed 3 cycles".toList]).toFinset.card = 1 := by
      decide
    show some (dictGet (get_summary st') "total_tasks") = some (some (Val.int 2))
    rw [h.1, hcard]
    rfl

end Zephyr

namespace PlotResults

/-- The efficiency-rating band chain of `generate_text_report`
(`plot_results.py`): `<10` EXCELLENT, `<25` GOOD, `<50` ACCEPTABLE,
otherwise POOR, applied to the average normalized miss rate. -/
def efficiency_rating (avg_normalized : ℚ) : String :=
  if avg_normalized < 10 then "EXCELLENT - Very efficient"
  else if avg_normalized < 25 then "GOOD - Reasonably efficient"
  else if avg_normalized < 50 then "ACCEPTABLE - Moderate efficiency"
  else "POOR - Low efficiency"

/-- The colour chain of `plot_normalized_miss_rate` (`plot_results.py`):
the same `<10`/`<25`/`<50` thresholds mapped to bar colours. -/
def efficiency_color (val : ℚ) : String :=
  if val < 10 then "darkgreen"
  else if val < 25 then "green"
  else if val < 50 then "orange"
  else "red"

/-- C6 (claim): the efficiency bands are `<10` / `<25` / `<50` with
boundaries closed upward — exactly 10 rates GOOD, 25 ACCEPTABLE, 50 POOR —
and the two call sites (text-report rating and plot colour) apply
identical thresholds band for band. -/
theorem efficiency_bands :
    efficiency_rating 10 = "GOOD - Reasonably efficient" ∧
    efficiency_rating 25 = "ACCEPTABLE - Moderate efficiency" ∧
    efficiency_rating 50 = "POOR - Low efficiency" ∧
    (∀ x : ℚ,
      (efficiency_rating x = "EXCELLENT - Very efficient" ↔ x < 10) ∧
      (efficiency_rating x = "GOOD - Reasonably efficient" ↔ 10 ≤ x ∧ x < 25) ∧
      (efficiency_rating x = "ACCEPTABLE - Moderate efficiency" ↔ 25 ≤ x ∧ x < 50) ∧
      (efficiency_rating x = "POOR - Low efficiency" ↔ 50 ≤ x)) ∧
    (∀ x : ℚ,
      (efficiency_color x = "darkgreen" ↔ efficiency_rating x = "EXCELLENT - Very efficient") ∧
      (efficiency_color x = "green" ↔ efficiency_rating x = "GOOD - Reasonably efficient") ∧
      (efficiency_color x = "orange" ↔ efficiency_rating x = "ACCEPTABLE - Moderate efficiency") ∧
      (efficiency_color x = "red" ↔ efficiency_rating x = "POOR - Low efficiency")) := by
  refine ⟨by decide, by decide, by decide, ?_, ?_⟩
  · intro x
    unfold efficiency_rating
    by_cases h1 : x < 10
    · have h2 : x < 25 := h1.trans (by norm_num)
      have h3 : x < 50 := h1.trans (by norm_num)
      simp [h1, h1.not_le, h2.not_le, h3.not_le]
    · by_cases h2 : x < 25
      · have h3 : x < 50 := h2.trans (by norm_num)
        simp [h1, h2, h3, not_lt.mp h1, h2.not_le, h3.not_le]
      · by_cases h3 : x < 50
        · simp [h1, h2, h3, not_lt.mp h2, h3.not_le,
            fun (hc : x < 10) => h2 (hc.trans (by norm_num))]
        · simp [h1, h2, h3, not_lt.mp h3,
            fun (hc : x < 25) => h3 (hc.trans (by norm_num)),
            fun (hc : x < 10) => h2 (hc.trans (by norm_num))]
  · intro x
    unfold efficiency_rating efficiency_color
    by_cases h1 : x < 10
    · simp [h1]
    · by_cases h2 : x < 25
      · simp [h1, h2]
      · by_cases h3 : x < 50
        · simp [h1, h2, h3]
        · simp [h1, h2, h3]

end PlotResults

namespace Workloads

/-- One summary row of `compare_schedulers.py` (fields as the script reads
them, with the `float(...)` conversions applied). -/
structure SRow where
  scheduler : String
  workload : String
  miss_rate_percent : ℚ
  avg_response_ms : ℚ
  jitter_ms : ℚ
deriving DecidableEq

/-- Python `min(iterable, key=f)`: fold keeping the current best, replacing
it only on a strictly smaller key — so the FIRST minimal element wins. -/
def pyMinBy (f : SRow → ℚ) : List SRow → Option SRow
  | [] => none
  | x :: xs => some (xs.foldl (fun best r => if f r < f best then r else best) x)

/-- The per-workload grouping of `find_best_scheduler` /
`compare_by_workload` (a `defaultdict` filled in input order). -/
def workloadRows (results : List SRow) (w : String) : List SRow :=
  results.filter (fun r => r.workload == w)

/-- `find_best_scheduler`: lowest miss rate per workload. -/
def best_miss (results : List SRow) (w : String) : Option SRow :=
  pyMinBy (fun r => r.miss_rate_percent) (workloadRows results w)

/-- `find_best_scheduler`: lowest average response time per workload. -/
def best_resp (results : List SRow) (w : String) : Option SRow :=
  pyMinBy (fun r => r.avg_response_ms) (workloadRows results w)

/-- `find_best_scheduler`: lowest jitter per workload. -/
def best_jitter (results : List SRow) (w : String) : Option SRow :=
  pyMinBy (fun r => r.jitter_ms) (workloadRows results w)

/-- The first element of the list attaining the minimal key (reference
formulation of "ties broken by earliest input position"). -/
def firstMinBy (f : SRow → ℚ) : List SRow → Option SRow
  | [] => none
  | x :: xs =>
    match firstMinBy f xs with
    | none => some x
    | some m => if f m < f x then some m else some x

theorem firstMinBy_cons (f : SRow → ℚ) (y : SRow) (ys : List SRow) :
    firstMinBy f (y :: ys) =
      match firstMinBy f ys with
      | none => some y
      | some m => if f m < f y then some m else some y := rfl

theorem firstMinBy_eq_none (f : SRow → ℚ) (l : List SRow) :
    firstMinBy f l = none ↔ l = [] := by
  cases l with
  | nil => simp [firstMinBy]
  | cons y ys =>
    rw [firstMinBy_cons]
    cases firstMinBy f ys with
    | none => simp
    | some m =>
      dsimp only
      by_cases hc : f m < f y
      · rw [if_pos hc]; simp
      · rw [if_neg hc]; simp

theorem pyMinBy_foldl (f : SRow → ℚ) (xs : List SRow) (acc : SRow) :
    xs.foldl (fun best r => if f r < f best then r else best) acc =
      match firstMinBy f xs with
      | none => acc
      | some m => if f m < f acc then m else acc := by
  induction xs generalizing acc with
  | nil => rfl
  | cons y ys ih =>
    rw [List.foldl_cons, ih, firstMinBy_cons]
    cases hys : firstMinBy f ys with
    | none => rfl
    | some m =>
      dsimp only
      by_cases hy : f y < f acc
      · rw [if_pos hy]
        by_cases hm : f m < f y
        · simp [hm, hm.trans hy]
        · simp [hm, hy]
      · rw [if_neg hy]
        by_cases hm : f m < f y
        · simp [hm]
        · simp only [if_neg hm]
          rw [if_neg hy, if_neg (fun hc : f m < f acc =>
            hm (lt_of_lt_of_le hc (not_lt.mp hy)))]

theorem pyMinBy_eq_firstMinBy (f : SRow → ℚ) (l : List SRow) :
    pyMinBy f l = firstMinBy f l := by
  cases l with
  | nil => rfl
  | cons x xs =>
    show some (xs.foldl (fun best r => if f r < f best then r else best) x) = _
    rw [pyMinBy_foldl, firstMinBy_cons]
    cases firstMinBy f xs with
    | none => simp
    | some m =>
      by_cases hc : f m < f x
      · simp [hc]
      · simp [hc]

theorem firstMinBy_min (f : SRow → ℚ) (l : List SRow) (m : SRow)
    (h : firstMinBy f l = some m) : m ∈ l ∧ ∀ x ∈ l, f m ≤ f x := by
  induction l generalizing m with
  | nil => exact absurd h (by simp [firstMinBy])
  | cons y ys ih =>
    rw [firstMinBy_cons] at h
    cases hys : firstMinBy f ys with
    | none =>
      rw [hys] at h
      dsimp only at h
      rw [Option.some_inj] at h
      subst h
      have hnil : ys = [] := (firstMinBy_eq_none f ys).mp hys
      subst hnil
      exact ⟨List.mem_singleton_self _, by simp⟩
    | some m₁ =>
      rw [hys] at h
      dsimp only at h
      obtain ⟨hmem, hle⟩ := ih m₁ hys
      by_cases hc : f m₁ < f y
      · rw [if_pos hc] at h
        rw [Option.some_inj] at h
        subst h
        refine ⟨List.mem_cons_of_mem _ hmem, ?_⟩
        intro x hx
        rcases List.mem_cons.mp hx with hx | hx
        · subst hx; exact le_of_lt hc
        · exact hle x hx
      · rw [if_neg hc] at h
        rw [Option.some_inj] at h
        subst h
        refine ⟨List.mem_cons_self _ _, ?_⟩
        intro x hx
        rcases List.mem_cons.mp hx with hx | hx
        · subst hx
          exact le_rfl
        · exact le_trans (not_lt.mp hc) (hle x hx)

theorem firstMinBy_first (f : SRow → ℚ) (l : List SRow) (m : SRow)
    (h : firstMinBy f l = some m) :
    ∃ pre post, l = pre ++ m :: post ∧ ∀ x ∈ pre, f m < f x := by
  induction l generalizing m with
  | nil => exact absurd h (by simp [firstMinBy])
  | cons y ys ih =>
    rw [firstMinBy_cons] at h
    cases hys : firstMinBy f ys with
    | none =>
      rw [hys] at h
      dsimp only at h
      rw [Option.some_inj] at h
      subst h
      exact ⟨[], ys, rfl, by simp⟩
    | some m₁ =>
      rw [hys] at h
      dsimp only at h
      by_cases hc : f m₁ < f y
      · rw [if_pos hc] at h
        rw [Option.some_inj] at h
        subst h
        obtain ⟨pre, post, hsplit, hstrict⟩ := ih m₁ hys
        refine ⟨y :: pre, post, by rw [hsplit]; rfl, ?_⟩
        intro x hx
        rcases List.mem_cons.mp hx with hx | hx
        · subst hx; exact hc
        · exact hstrict x hx
      · rw [if_neg hc] at h
        rw [Option.some_inj] at h
        subst h
        exact ⟨[], ys, rfl, by simp⟩

/-- C7 counterexample: two rows of the same workload tie on every metric;
the scheduler named "Z" appears first in the input, the alphabetically
earlier "A" second.  `find_best_scheduler` reports "Z" for all three
metrics — the tie is broken by insertion order, not by the canonical
ascending scheduler-name order, which would pick "A" ('A' sorts before
'Z'). -/
theorem tie_broken_by_insertion_counterexample :
    (best_miss [⟨"Z", "Heavy", 5, 7, 9⟩, ⟨"A", "Heavy", 5, 7, 9⟩] "Heavy").map
      SRow.scheduler = some "Z" ∧
    (best_resp [⟨"Z", "Heavy", 5, 7, 9⟩, ⟨"A", "Heavy", 5, 7, 9⟩] "Heavy").map
      SRow.scheduler = some "Z" ∧
    (best_jitter [⟨"Z", "Heavy", 5, 7, 9⟩, ⟨"A", "Heavy", 5, 7, 9⟩] "Heavy").map
      SRow.scheduler = some "Z" ∧
    ('A' < 'Z' ∧ "A" ≠ "Z") := by
  refine ⟨by decide, by decide, by decide, by decide, by decide⟩

/-- C7 as amended: for each metric the selected row is a row of the
workload's group minimizing the metric, and a tie on the metric value is
broken by the earliest input position (the first row attaining the
minimum), not by the canonical GroupKey ordering. -/
theorem best_scheduler_first_min (results : List SRow) (w : String) :
    best_miss results w = firstMinBy (fun r => r.miss_rate_percent) (workloadRows results w) ∧
    best_resp results w = firstMinBy (fun r => r.avg_response_ms) (workloadRows results w) ∧
    best_jitter results w = firstMinBy (fun r => r.jitter_ms) (workloadRows results w) ∧
    (∀ (f : SRow → ℚ) (l : List SRow) (m : SRow), firstMinBy f l = some m →
      (m ∈ l ∧ ∀ x ∈ l, f m ≤ f x) ∧
      ∃ pre post, l = pre ++ m :: post ∧ ∀ x ∈ pre, f m < f x) := by
  exact ⟨pyMinBy_eq_firstMinBy _ _, pyMinBy_eq_firstMinBy _ _, pyMinBy_eq_firstMinBy _ _,
    fun f l m h => ⟨firstMinBy_min f l m h, firstMinBy_first f l m h⟩⟩

/-- Witness for the amended C7: on a concrete two-row group the selected
row is a member attaining the minimal miss rate. -/
theorem best_scheduler_first_min_witness :
    (⟨"A", "Heavy", 4, 7, 9⟩ : SRow) ∈
      ([⟨"Z", "Heavy", 5, 7, 9⟩, ⟨"A", "Heavy", 4, 7, 9⟩] : List SRow) ∧
    ∀ x ∈ ([⟨"Z", "Heavy", 5, 7, 9⟩, ⟨"A", "Heavy", 4, 7, 9⟩] : List SRow),
      (4 : ℚ) ≤ x.miss_rate_percent := by
  have h := (best_scheduler_first_min
      [⟨"Z", "Heavy", 5, 7, 9⟩, ⟨"A", "Heavy", 4, 7, 9⟩] "Heavy").2.2.2
    (fun r => r.miss_rate_percent)
    [⟨"Z", "Heavy", 5, 7, 9⟩, ⟨"A", "Heavy", 4, 7, 9⟩]
    ⟨"A", "Heavy", 4, 7, 9⟩ (by decide)
  exact ⟨h.1.1, h.1.2⟩

end Workloads

namespace PlotResults

/-- Python `int(s)` on a string: optional surrounding whitespace, optional
sign, one or more decimal digits.  (Digit-group separators and non-decimal
bases are not modelled; no CSV in this harness uses them.) -/
def digitsVal (cs : List Char) : Option Nat :=
  if cs.isEmpty then none
  else if cs.all Char.isDigit then some (Zephyr.natOfDigits cs) else none

def trimWs (s : String) : List Char :=
  ((s.toList.dropWhile Char.isWhitespace).reverse.dropWhile Char.isWhitespace).reverse

def pyInt (s : String) : Option Int :=
  match trimWs s with
  | '-' :: rest => (digitsVal rest).map (fun n => -(n : Int))
  | '+' :: rest => (digitsVal rest).map (fun n => (n : Int))
  | rest => (digitsVal rest).map (fun n => (n : Int))

/-- Exponent suffix of a Python float literal: empty, or `e`/`E` with an
optionally signed digit run. -/
def expVal : List Char → Option Int
  | [] => some 0
  | 'e' :: '-' :: ds => (digitsVal ds).map (fun n => -(n : Int))
  | 'e' :: '+' :: ds => (digitsVal ds).map (fun n => (n : Int))
  | 'e' :: ds => (digitsVal ds).map (fun n => (n : Int))
  | 'E' :: '-' :: ds => (digitsVal ds).map (fun n => -(n : Int))
  | 'E' :: '+' :: ds => (digitsVal ds).map (fun n => (n : Int))
  | 'E' :: ds => (digitsVal ds).map (fun n => (n : Int))
  | _ => none

/-- The rational value `±m × 10^scale`, built with a single `mkRat` over
integer arithmetic. -/
def ratOfSci (neg : Bool) (m : Nat) (scale : Int) : ℚ :=
  let n : Int := if neg then -(m : Int) else (m : Int)
  match scale with
  | Int.ofNat k => mkRat (n * ((10 ^ k : Nat) : Int)) 1
  | Int.negSucc k => mkRat n (10 ^ (k + 1))

/-- Unsigned mantissa (`digits[.digits]` or `.digits`) with optional
exponent, as a rational: the digit string `ip.fp` with exponent `e` is
`±(ip ++ fp) × 10 ^ (e - fp.length)`. -/
def pyFloatCore (neg : Bool) (cs : List Char) : Option ℚ :=
  let ip := cs.takeWhile Char.isDigit
  let rest := cs.dropWhile Char.isDigit
  match rest with
  | '.' :: rest₂ =>
    let fp := rest₂.takeWhile Char.isDigit
    let rest₃ := rest₂.dropWhile Char.isDigit
    if ip.isEmpty && fp.isEmpty then none
    else (expVal rest₃).map (fun e =>
      ratOfSci neg (Zephyr.natOfDigits (ip ++ fp)) (e - fp.length))
  | rest₂ =>
    if ip.isEmpty then none
    else (expVal rest₂).map (fun e => ratOfSci neg (Zephyr.natOfDigits ip) e)

/-- Python `float(s)`: optional surrounding whitespace and sign, then a
decimal mantissa with optional exponent.  (`inf`/`nan` are not modelled;
this harness's CSVs carry only finite decimals.) -/
def pyFloat (s : String) : Option ℚ :=
  match trimWs s with
  | '-' :: rest => pyFloatCore true rest
  | '+' :: rest => pyFloatCore false rest
  | rest => pyFloatCore false rest

instance instDecEqExcept {ε α : Type} [DecidableEq ε] [DecidableEq α] :
    DecidableEq (Except ε α) := fun x y =>
  match x, y with
  | .ok a, .ok b =>
    if h : a = b then isTrue (by rw [h])
    else isFalse (by intro hc; injection hc; exact absurd (by assumption) h)
  | .error e, .error f =>
    if h : e = f then isTrue (by rw [h])
    else isFalse (by intro hc; injection hc; exact absurd (by assumption) h)
  | .ok _, .error _ => isFalse (fun hc => Except.noConfusion hc)
  | .error _, .ok _ => isFalse (fun hc => Except.noConfusion hc)

/-- The typed failures of `load_csv`: Python `KeyError` for a missing
required column and `ValueError` for a non-numeric field (the spec's
`MalformedRowError` taxonomy). -/
inductive LoadErr where
  | keyError (k : String)
  | valueError (s : String)
deriving DecidableEq

/-- Converted cell values after `load_csv`'s in-place updates. -/
inductive CVal where
  | str (s : String)
  | int (n : Int)
  | rat (q : ℚ)
deriving DecidableEq

def lookupS (row : List (String × String)) (k : String) : Option String :=
  match row with
  | [] => none
  | (k₁, v) :: rest => if k₁ = k then some v else lookupS rest k

def setCV (row : List (String × CVal)) (k : String) (v : CVal) :
    List (String × CVal) :=
  match row with
  | [] => [(k, v)]
  | (k₁, v₁) :: rest => if k₁ = k then (k₁, v) :: rest else (k₁, v₁) :: setCV rest k v

def getCV (row : List (String × CVal)) (k : String) : Option CVal :=
  match row with
  | [] => none
  | (k₁, v) :: rest => if k₁ = k then some v else getCV rest k

/-- `int(row[k])`: `KeyError` when the column is absent, `ValueError` when
present but not an integer literal. -/
def reqInt (row : List (String × String)) (k : String) : Except LoadErr Int :=
  match lookupS row k with
  | none => .error (.keyError k)
  | some s =>
    match pyInt s with
    | none => .error (.valueError s)
    | some n => .ok n

/-- `float(row[k])`. -/
def reqFloat (row : List (String × String)) (k : String) : Except LoadErr ℚ :=
  match lookupS row k with
  | none => .error (.keyError k)
  | some s =>
    match pyFloat s with
    | none => .error (.valueError s)
    | some q => .ok q

/-- `int(row.get(k, 0))`: typed default `0` when absent, `ValueError` only
when present and non-numeric. -/
def optInt (row : List (String × String)) (k : String) : Except LoadErr Int :=
  match lookupS row k with
  | none => .ok 0
  | some s =>
    match pyInt s with
    | none => .error (.valueError s)
    | some n => .ok n

/-- `float(row.get(k, 0))`: typed default `0.0` when absent. -/
def optFloat (row : List (String × String)) (k : String) : Except LoadErr ℚ :=
  match lookupS row k with
  | none => .ok 0
  | some s =>
    match pyFloat s with
    | none => .error (.valueError s)
    | some q => .ok q

/-- The per-row body of `load_csv` (`plot_results.py`): the row dictionary
with its numeric columns converted in source order — `Threads`,
`Activations`, `Misses`, `MissRate` required; the latency, kernel-overhead
and normalized-metric columns optional with typed defaults.  All other
columns (e.g. `Scheduler`, `Load`) pass through untouched and unvalidated. -/
def load_row (row : List (String × String)) :
    Except LoadErr (List (String × CVal)) := do
  let threads ← reqInt row "Threads"
  let activations ← reqInt row "Activations"
  let misses ← reqInt row "Misses"
  let missRate ← reqFloat row "MissRate"
  let avgRT ← optInt row "AvgResponseTime"
  let maxRT ← optInt row "MaxResponseTime"
  let jitter ← optInt row "Jitter"
  let ctxSw ← optInt row "ContextSwitches"
  let preempt ← optInt row "Preemptions"
  let csPerAct ← optFloat row "CSPerActivation"
  let overheadP ← optFloat row "OverheadPercent"
  let util ← optFloat row "Utilization"
  let normMR ← optFloat row "NormalizedMissRate"
  .ok (setCV (setCV (setCV (setCV (setCV (setCV (setCV (setCV (setCV (setCV
    (setCV (setCV (setCV (row.map (fun p => (p.1, CVal.str p.2)))
      "Threads" (.int threads))
      "Activations" (.int activations))
      "Misses" (.int misses))
      "MissRate" (.rat missRate))
      "AvgResponseTime" (.int avgRT))
      "MaxResponseTime" (.int maxRT))
      "Jitter" (.int jitter))
      "ContextSwitches" (.int ctxSw))
      "Preemptions" (.int preempt))
      "CSPerActivation" (.rat csPerAct))
      "OverheadPercent" (.rat overheadP))
      "Utilization" (.rat util))
      "NormalizedMissRate" (.rat normMR))

/-- C5 counterexample: a row carrying none of the columns the claim calls
required (`scheduler`, `workload`, `response_time`, `deadline_met`) — only
`Threads`, `Activations`, `Misses`, `MissRate` — loads successfully, with
every optional column defaulted; so the loader does not fail when
`scheduler` or `response_time` is missing, refuting the claimed required
set.  (`AvgResponseTime`, the response-time column, is optional in the
code.) -/
theorem required_columns_counterexample :
    lookupS [("Threads", "4"), ("Activations", "100"), ("Misses", "5"),
      ("MissRate", "5.0")] "Scheduler" = none ∧
    lookupS [("Threads", "4"), ("Activations", "100"), ("Misses", "5"),
      ("MissRate", "5.0")] "AvgResponseTime" = none ∧
    load_row [("Threads", "4"), ("Activations", "100"), ("Misses", "5"),
      ("MissRate", "5.0")] = .ok
      [("Threads", CVal.int 4), ("Activations", CVal.int 100),
       ("Misses", CVal.int 5), ("MissRate", CVal.rat 5),
       ("AvgResponseTime", CVal.int 0), ("MaxResponseTime", CVal.int 0),
       ("Jitter", CVal.int 0), ("ContextSwitches", CVal.int 0),
       ("Preemptions", CVal.int 0), ("CSPerActivation", CVal.rat 0),
       ("OverheadPercent", CVal.rat 0), ("Utilization", CVal.rat 0),
       ("NormalizedMissRate", CVal.rat 0)] := by
  exact ⟨rfl, rfl, by decide⟩

/-- An optional integer column is acceptable: absent, or an integer. -/
def optIntOk (row : List (String × String)) (k : String) : Bool :=
  match lookupS row k with
  | none => true
  | some s => (pyInt s).isSome

/-- An optional float column is acceptable: absent, or numeric. -/
def optFloatOk (row : List (String × String)) (k : String) : Bool :=
  match lookupS row k with
  | none => true
  | some s => (pyFloat s).isSome

/-- The loader's actual success condition: the four required columns
(`Threads`, `Activations`, `Misses` integers; `MissRate` numeric) present
and parseable, and every present optional column numeric. -/
def rowOk (row : List (String × String)) : Bool :=
  ((lookupS row "Threads").bind pyInt).isSome &&
  ((lookupS row "Activations").bind pyInt).isSome &&
  ((lookupS row "Misses").bind pyInt).isSome &&
  ((lookupS row "MissRate").bind pyFloat).isSome &&
  optIntOk row "AvgResponseTime" &&
  optIntOk row "MaxResponseTime" &&
  optIntOk row "Jitter" &&
  optIntOk row "ContextSwitches" &&
  optIntOk row "Preemptions" &&
  optFloatOk row "CSPerActivation" &&
  optFloatOk row "OverheadPercent" &&
  optFloatOk row "Utilization" &&
  optFloatOk row "NormalizedMissRate"

theorem reqInt_isSome (row : List (String × String)) (k : String) :
    (reqInt row k).toOption.isSome = ((lookupS row k).bind pyInt).isSome := by
  unfold reqInt
  cases lookupS row k with
  | none => rfl
  | some s =>
    dsimp only
    cases hp : pyInt s with
    | none => simp [hp, Except.toOption]
    | some n => simp [hp, Except.toOption]

theorem reqFloat_isSome (row : List (String × String)) (k : String) :
    (reqFloat row k).toOption.isSome = ((lookupS row k).bind pyFloat).isSome := by
  unfold reqFloat
  cases lookupS row k with
  | none => rfl
  | some s =>
    dsimp only
    cases hp : pyFloat s with
    | none => simp [hp, Except.toOption]
    | some q => simp [hp, Except.toOption]

theorem optInt_isSome (row : List (String × String)) (k : String) :
    (optInt row k).toOption.isSome = optIntOk row k := by
  unfold optInt optIntOk
  cases lookupS row k with
  | none => rfl
  | some s =>
    dsimp only
    cases hp : pyInt s with
    | none => simp [hp, Except.toOption]
    | some n => simp [hp, Except.toOption]

theorem optFloat_isSome (row : List (String × String)) (k : String) :
    (optFloat row k).toOption.isSome = optFloatOk row k := by
  unfold optFloat optFloatOk
  cases lookupS row k with
  | none => rfl
  | some s =>
    dsimp only
    cases hp : pyFloat s with
    | none => simp [hp, Except.toOption]
    | some q => simp [hp, Except.toOption]

theorem getCV_setCV_self (d : List (String × CVal)) (k : String) (v : CVal) :
    getCV (setCV d k v) k = some v := by
  induction d with
  | nil => simp [setCV, getCV]
  | cons p rest ih =>
    obtain ⟨k₁, v₁⟩ := p
    by_cases hk : k₁ = k
    · simp [setCV, getCV, hk]
    · simp [setCV, getCV, hk, ih]

theorem getCV_setCV_ne (d : List (String × CVal)) (k k' : String) (v : CVal)
    (h : ¬k = k') : getCV (setCV d k v) k' = getCV d k' := by
  induction d with
  | nil => simp [setCV, getCV, h]
  | cons p rest ih =>
    obtain ⟨k₁, v₁⟩ := p
    by_cases hk : k₁ = k
    · subst hk; simp [setCV, getCV, h]
    · by_cases hk' : k₁ = k'
      · subst hk'
        simp [setCV, getCV, hk]
      · simp [setCV, getCV, hk, hk', ih]

theorem exc_bind_error {ε α β : Type} (e : ε) (f : α → Except ε β) :
    (Except.error e >>= f : Except ε β) = Except.error e := rfl

theorem exc_bind_ok {ε α β : Type} (a : α) (f : α → Except ε β) :
    (Except.ok a >>= f : Except ε β) = f a := rfl

/-- C5 as amended: `load_row` succeeds exactly when `Threads`,
`Activations`, `Misses` parse as integers, `MissRate` parses as a number,
and every present optional column is numeric; each absent optional column
receives its typed default (integer 0 / float 0.0).  The `Scheduler` and
workload (`Load`) columns are never validated by the loader. -/
theorem load_row_spec (row : List (String × String)) :
    ((load_row row).toOption.isSome = rowOk row) ∧
    (∀ v, load_row row = .ok v →
      (lookupS row "AvgResponseTime" = none →
        getCV v "AvgResponseTime" = some (CVal.int 0)) ∧
      (lookupS row "MaxResponseTime" = none →
        getCV v "MaxResponseTime" = some (CVal.int 0)) ∧
      (lookupS row "Jitter" = none → getCV v "Jitter" = some (CVal.int 0)) ∧
      (lookupS row "ContextSwitches" = none →
        getCV v "ContextSwitches" = some (CVal.int 0)) ∧
      (lookupS row "Preemptions" = none →
        getCV v "Preemptions" = some (CVal.int 0)) ∧
      (lookupS row "CSPerActivation" = none →
        getCV v "CSPerActivation" = some (CVal.rat 0)) ∧
      (lookupS row "OverheadPercent" = none →
        getCV v "OverheadPercent" = some (CVal.rat 0)) ∧
      (lookupS row "Utilization" = none →
        getCV v "Utilization" = some (CVal.rat 0)) ∧
      (lookupS row "NormalizedMissRate" = none →
        getCV v "NormalizedMissRate" = some (CVal.rat 0))) := by
  constructor
  · cases hT : reqInt row "Threads" with
    | error e =>
      have hb : ((lookupS row "Threads").bind pyInt).isSome = false := by
        rw [← reqInt_isSome, hT]; rfl
      simp [load_row, rowOk, exc_bind_error, exc_bind_ok, Except.toOption, hT, hb]
    | ok threads =>
    have hb1 : ((lookupS row "Threads").bind pyInt).isSome = true := by
      rw [← reqInt_isSome, hT]; rfl
    cases hA : reqInt row "Activations" with
    | error e =>
      have hb : ((lookupS row "Activations").bind pyInt).isSome = false := by
        rw [← reqInt_isSome, hA]; rfl
      simp [load_row, rowOk, exc_bind_error, exc_bind_ok, Except.toOption, hT, hA, hb]
    | ok activations =>
    have hb2 : ((lookupS row "Activations").bind pyInt).isSome = true := by
      rw [← reqInt_isSome, hA]; rfl
    cases hM : reqInt row "Misses" with
    | error e =>
      have hb : ((lookupS row "Misses").bind pyInt).isSome = false := by
        rw [← reqInt_isSome, hM]; rfl
      simp [load_row, rowOk, exc_bind_error, exc_bind_ok, Except.toOption, hT, hA, hM, hb]
    | ok misses =>
    have hb3 : ((lookupS row "Misses").bind pyInt).isSome = true := by
      rw [← reqInt_isSome, hM]; rfl
    cases hR : reqFloat row "MissRate" with
    | error e =>
      have hb : ((lookupS row "MissRate").bind pyFloat).isSome = false := by
        rw [← reqFloat_isSome, hR]; rfl
      simp [load_row, rowOk, exc_bind_error, exc_bind_ok, Except.toOption, hT, hA, hM, hR, hb1, hb2, hb3, hb]
    | ok missRate =>
    have hb4 : ((lookupS row "MissRate").bind pyFloat).isSome = true := by
      rw [← reqFloat_isSome, hR]; rfl
    cases h5 : optInt row "AvgResponseTime" with
    | error e =>
      have hb : optIntOk row "AvgResponseTime" = false := by
        rw [← optInt_isSome, h5]; rfl
      simp [load_row, rowOk, exc_bind_error, exc_bind_ok, Except.toOption, hT, hA, hM, hR, h5, hb1, hb2, hb3, hb4, hb]
    | ok avgRT =>
    have hb5 : optIntOk row "AvgResponseTime" = true := by
      rw [← optInt_isSome, h5]; rfl
    cases h6 : optInt row "MaxResponseTime" with
    | error e =>
      have hb : optIntOk row "MaxResponseTime" = false := by
        rw [← optInt_isSome, h6]; rfl
      simp [load_row, rowOk, exc_bind_error, exc_bind_ok, Except.toOption, hT, hA, hM, hR, h5, h6, hb1, hb2, hb3, hb4, hb5, hb]
    | ok maxRT =>
    have hb6 : optIntOk row "MaxResponseTime" = true := by
      rw [← optInt_isSome, h6]; rfl
    cases h7 : optInt row "Jitter" with
    | error e =>
      have hb : optIntOk row "Jitter" = false := by
        rw [← optInt_isSome, h7]; rfl
      simp [load_row, rowOk, exc_bind_error, exc_bind_ok, Except.toOption, hT, hA, hM, hR, h5, h6, h7, hb1, hb2, hb3, hb4,
        hb5, hb6, hb]
    | ok jitter =>
    have hb7 : optIntOk row "Jitter" = true := by
      rw [← optInt_isSome, h7]; rfl
    cases h8 : optInt row "ContextSwitches" with
    | error e =>
      have hb : optIntOk row "ContextSwitches" = false := by
        rw [← optInt_isSome, h8]; rfl
      simp [load_row, rowOk, exc_bind_error, exc_bind_ok, Except.toOption, hT, hA, hM, hR, h5, h6, h7, h8, hb1, hb2, hb3,
        hb4, hb5, hb6, hb7, hb]
    | ok ctxSw =>
    have hb8 : optIntOk row "ContextSwitches" = true := by
      rw [← optInt_isSome, h8]; rfl
    cases h9 : optInt row "Preemptions" with
    | error e =>
      have hb : optIntOk row "Preemptions" = false := by
        rw [← optInt_isSome, h9]; rfl
      simp [load_row, rowOk, exc_bind_error, exc_bind_ok, Except.toOption, hT, hA, hM, hR, h5, h6, h7, h8, h9, hb1, hb2,
        hb3, hb4, hb5, hb6, hb7, hb8, hb]
    | ok preempt =>
    have hb9 : optIntOk row "Preemptions" = true := by
      rw [← optInt_isSome, h9]; rfl
    cases h10 : optFloat row "CSPerActivation" with
    | error e =>
      have hb : optFloatOk row "CSPerActivation" = false := by
        rw [← optFloat_isSome, h10]; rfl
      simp [load_row, rowOk, exc_bind_error, exc_bind_ok, Except.toOption, hT, hA, hM, hR, h5, h6, h7, h8, h9, h10, hb1,
        hb2, hb3, hb4, hb5, hb6, hb7, hb8, hb9, hb]
    | ok csPerAct =>
    have hb10 : optFloatOk row "CSPerActivation" = true := by
      rw [← optFloat_isSome, h10]; rfl
    cases h11 : optFloat row "OverheadPercent" with
    | error e =>
      have hb : optFloatOk row "OverheadPercent" = false := by
        rw [← optFloat_isSome, h11]; rfl
      simp [load_row, rowOk, exc_bind_error, exc_bind_ok, Except.toOption, hT, hA, hM, hR, h5, h6, h7, h8, h9, h10, h11,
        hb1, hb2, hb3, hb4, hb5, hb6, hb7, hb8, hb9, hb10, hb]
    | ok overheadP =>
    have hb11 : optFloatOk row "OverheadPercent" = true := by
      rw [← optFloat_isSome, h11]; rfl
    cases h12 : optFloat row "Utilization" with
    | error e =>
      have hb : optFloatOk row "Utilization" = false := by
        rw [← optFloat_isSome, h12]; rfl
      simp [load_row, rowOk, exc_bind_error, exc_bind_ok, Except.toOption, hT, hA, hM, hR, h5, h6, h7, h8, h9, h10, h11,
        h12, hb1, hb2, hb3, hb4, hb5, hb6, hb7, hb8, hb9, hb10, hb11, hb]
    | ok util =>
    have hb12 : optFloatOk row "Utilization" = true := by
      rw [← optFloat_isSome, h12]; rfl
    cases h13 : optFloat row "NormalizedMissRate" with
    | error e =>
      have hb : optFloatOk row "NormalizedMissRate" = false := by
        rw [← optFloat_isSome, h13]; rfl
      simp [load_row, rowOk, exc_bind_error, exc_bind_ok, Except.toOption, hT, hA, hM, hR, h5, h6, h7, h8, h9, h10, h11,
        h12, h13, hb1, hb2, hb3, hb4, hb5, hb6, hb7, hb8, hb9, hb10, hb11,
        hb12, hb]
    | ok normMR =>
    have hb13 : optFloatOk row "NormalizedMissRate" = true := by
      rw [← optFloat_isSome, h13]; rfl
    simp [load_row, rowOk, exc_bind_error, exc_bind_ok, Except.toOption, hT, hA, hM, hR, h5, h6, h7, h8, h9, h10, h11, h12,
      h13, hb1, hb2, hb3, hb4, hb5, hb6, hb7, hb8, hb9, hb10, hb11, hb12, hb13]
  · intro v hv
    unfold load_row at hv
    cases hT : reqInt row "Threads" with
    | error e => rw [hT] at hv; exact absurd hv (by simp [exc_bind_error, exc_bind_ok])
    | ok threads =>
    rw [hT] at hv
    cases hA : reqInt row "Activations" with
    | error e => rw [hA] at hv; exact absurd hv (by simp [exc_bind_error, exc_bind_ok])
    | ok activations =>
    rw [hA] at hv
    cases hM : reqInt row "Misses" with
    | error e => rw [hM] at hv; exact absurd hv (by simp [exc_bind_error, exc_bind_ok])
    | ok misses =>
    rw [hM] at hv
    cases hR : reqFloat row "MissRate" with
    | error e => rw [hR] at hv; exact absurd hv (by simp [exc_bind_error, exc_bind_ok])
    | ok missRate =>
    rw [hR] at hv
    cases h5 : optInt row "AvgResponseTime" with
    | error e => rw [h5] at hv; exact absurd hv (by simp [exc_bind_error, exc_bind_ok])
    | ok avgRT =>
    rw [h5] at hv
    cases h6 : optInt row "MaxResponseTime" with
    | error e => rw [h6] at hv; exact absurd hv (by simp [exc_bind_error, exc_bind_ok])
    | ok maxRT =>
    rw [h6] at hv
    cases h7 : optInt row "Jitter" with
    | error e => rw [h7] at hv; exact absurd hv (by simp [exc_bind_error, exc_bind_ok])
    | ok jitter =>
    rw [h7] at hv
    cases h8 : optInt row "ContextSwitches" with
    | error e => rw [h8] at hv; exact absurd hv (by simp [exc_bind_error, exc_bind_ok])
    | ok ctxSw =>
    rw [h8] at hv
    cases h9 : optInt row "Preemptions" with
    | error e => rw [h9] at hv; exact absurd hv (by simp [exc_bind_error, exc_bind_ok])
    | ok preempt =>
    rw [h9] at hv
    cases h10 : optFloat row "CSPerActivation" with
    | error e => rw [h10] at hv; exact absurd hv (by simp [exc_bind_error, exc_bind_ok])
    | ok csPerAct =>
    rw [h10] at hv
    cases h11 : optFloat row "OverheadPercent" with
    | error e => rw [h11] at hv; exact absurd hv (by simp [exc_bind_error, exc_bind_ok])
    | ok overheadP =>
    rw [h11] at hv
    cases h12 : optFloat row "Utilization" with
    | error e => rw [h12] at hv; exact absurd hv (by simp [exc_bind_error, exc_bind_ok])
    | ok util =>
    rw [h12] at hv
    cases h13 : optFloat row "NormalizedMissRate" with
    | error e => rw [h13] at hv; exact absurd hv (by simp [exc_bind_error, exc_bind_ok])
    | ok normMR =>
    rw [h13] at hv
    simp only [exc_bind_ok, Except.ok.injEq] at hv
    subst hv
    have hdef : ∀ (hacc : Except LoadErr Int) (k : String) (n : Int),
        lookupS row k = none → optInt row k = .ok n → n = 0 := by
      intro _ k n hnone hok
      unfold optInt at hok
      rw [hnone] at hok
      simp only [Except.ok.injEq] at hok
      exact hok.symm
    have hdefF : ∀ (k : String) (q : ℚ),
        lookupS row k = none → optFloat row k = .ok q → q = 0 := by
      intro k q hnone hok
      unfold optFloat at hok
      rw [hnone] at hok
      simp only [Except.ok.injEq] at hok
      exact hok.symm
    refine ⟨?_, ?_, ?_, ?_, ?_, ?_, ?_, ?_, ?_⟩
    · intro hnone
      rw [hdef (Except.ok 0) _ _ hnone h5]
      simp [getCV_setCV_self, getCV_setCV_ne]
    · intro hnone
      rw [hdef (Except.ok 0) _ _ hnone h6]
      simp [getCV_setCV_self, getCV_setCV_ne]
    · intro hnone
      rw [hdef (Except.ok 0) _ _ hnone h7]
      simp [getCV_setCV_self, getCV_setCV_ne]
    · intro hnone
      rw [hdef (Except.ok 0) _ _ hnone h8]
      simp [getCV_setCV_self, getCV_setCV_ne]
    · intro hnone
      rw [hdef (Except.ok 0) _ _ hnone h9]
      simp [getCV_setCV_self, getCV_setCV_ne]
    · intro hnone
      rw [hdefF _ _ hnone h10]
      simp [getCV_setCV_self, getCV_setCV_ne]
    · intro hnone
      rw [hdefF _ _ hnone h11]
      simp [getCV_setCV_self, getCV_setCV_ne]
    · intro hnone
      rw [hdefF _ _ hnone h12]
      simp [getCV_setCV_self, getCV_setCV_ne]
    · intro hnone
      rw [hdefF _ _ hnone h13]
      simp [getCV_setCV_self, getCV_setCV_ne]

/-- Witness for the amended C5: the concrete minimal row satisfies
`rowOk`, loads, and defaults its absent optional columns. -/
theorem load_row_spec_witness :
    rowOk [("Threads", "4"), ("Activations", "100"), ("Misses", "5"),
      ("MissRate", "5.0")] = true ∧
    (load_row [("Threads", "4"), ("Activations", "100"), ("Misses", "5"),
      ("MissRate", "5.0")]).toOption.isSome = true ∧
    ((load_row [("Threads", "4"), ("Activations", "100"), ("Misses", "5"),
      ("MissRate", "5.0")]).toOption.bind
        (fun v => getCV v "Jitter")) = some (CVal.int 0) := by
  refine ⟨by decide, ?_, ?_⟩
  · rw [(load_row_spec [("Threads", "4"), ("Activations", "100"),
      ("Misses", "5"), ("MissRate", "5.0")]).1]
    decide
  · cases hv : load_row [("Threads", "4"), ("Activations", "100"),
        ("Misses", "5"), ("MissRate", "5.0")] with
    | error e =>
      have hs : (load_row [("Threads", "4"), ("Activations", "100"),
          ("Misses", "5"), ("MissRate", "5.0")]).toOption.isSome = true := by decide
      rw [hv] at hs
      exact absurd hs (by simp [Except.toOption])
    | ok v =>
      have h := ((load_row_spec [("Threads", "4"), ("Activations", "100"),
        ("Misses", "5"), ("MissRate", "5.0")]).2 v hv).2.2.1 (by decide)
      simp [Except.toOption, h]

end PlotResults
